import Mathlib

/-!
Shallow embedding of `src/parkinglot.py`.

Modelling conventions:
* machine-level details absent from the program logic are made explicit:
  `datetime` values become rational numbers measured in hours, so the Python
  expression `(exit_time - entry_time) / timedelta(hours=1)` becomes plain
  subtraction on `ℚ`;
* `uuid.uuid4()` (an opaque globally unique string) is modelled by a fresh
  natural-number counter `nextTicketId` carried in the facility state;
* Python's in-place mutation is modelled by explicit state passing: every
  mutator returns the new state next to its result, and an operation that
  raises an exception returns an `Except.error` together with the state as
  the mutation left it;
* the Python `dict[str, Ticket]` registry is modelled as an insertion-ordered
  association list with `dictInsert` (overwrite-or-append, as dict assignment)
  and `dictPop` (remove-if-present, as `dict.pop(k, None)`).
-/

inductive SpotType
  | MOTORCYCLE
  | CAR
  | BUS
deriving DecidableEq

/-- The Python enum member name, as used by `st.name[:1]` in spot ids. -/
def SpotType.name : SpotType → String
  | .MOTORCYCLE => "MOTORCYCLE"
  | .CAR => "CAR"
  | .BUS => "BUS"

inductive Vehicle
  | Car (plate : String)
  | Bus (plate : String)
  | Motorcycle (plate : String)
deriving DecidableEq

def Vehicle.vehicle_id : Vehicle → String
  | .Car plate => plate
  | .Bus plate => plate
  | .Motorcycle plate => plate

def Vehicle.required_spot_type : Vehicle → SpotType
  | .Car _ => .CAR
  | .Bus _ => .BUS
  | .Motorcycle _ => .MOTORCYCLE

/-- Python's `str.lower()`: lowercase the string character by character. -/
def strLower (s : String) : String :=
  ⟨s.data.map Char.toLower⟩

/-- `VehicleFactory.create`: dictionary lookup on the lowercased type tag;
`ValueError` is modelled as `Except.error` carrying the message. -/
def VehicleFactory.create (vtype : String) (plate : String) : Except String Vehicle :=
  if strLower vtype = "car" then .ok (.Car plate)
  else if strLower vtype = "bus" then .ok (.Bus plate)
  else if strLower vtype = "motorcycle" then .ok (.Motorcycle plate)
  else .error ("Unknown vehicle type: " ++ vtype)

structure ParkingSpot where
  spot_id : String
  spot_type : SpotType
  is_occupied : Bool
deriving DecidableEq

/-- `ParkingSpot.assign_spot`: occupy if free, reporting success. -/
def ParkingSpot.assign_spot (s : ParkingSpot) : Bool × ParkingSpot :=
  if s.is_occupied = false then (true, { s with is_occupied := true })
  else (false, s)

/-- `ParkingSpot.release_spot`: unconditionally mark free. -/
def ParkingSpot.release_spot (s : ParkingSpot) : ParkingSpot :=
  { s with is_occupied := false }

/-- The f-string `f"L{level_id}-{st.name[:1]}{i + 1}"` of `Level.__init__`,
with `i + 1` already substituted as the 1-based index. -/
def sidStr (level_id : Nat) (st : SpotType) (idx : Nat) : String :=
  "L" ++ Nat.repr level_id ++ "-" ++ st.name.take 1 ++ Nat.repr idx

/-- The spots created by the inner loop of `Level.__init__` for one
`(spot_type, count)` entry of the configuration. -/
def mkSpots (level_id : Nat) (st : SpotType) (count : Nat) : List ParkingSpot :=
  (List.range count).map fun i =>
    { spot_id := sidStr level_id st (i + 1)
      spot_type := st
      is_occupied := false }

structure Level where
  level_id : Nat
  spots : List ParkingSpot
deriving DecidableEq

/-- `Level.__init__`: the configuration dict is modelled as an
insertion-ordered association list, iterated in order. -/
def Level.init (level_id : Nat) (spots_per_type : List (SpotType × Nat)) : Level :=
  { level_id := level_id
    spots := spots_per_type.flatMap fun p => mkSpots level_id p.1 p.2 }

/-- The scan loop of `Level.find_and_assign_spot` over a spot list: the first
spot of the needed type whose `assign_spot` succeeds is returned (updated),
spots before it are left untouched. -/
def scanAssign (needed : SpotType) : List ParkingSpot → Option ParkingSpot × List ParkingSpot
  | [] => (none, [])
  | s :: rest =>
    let a := s.assign_spot
    if s.spot_type = needed ∧ a.1 = true then
      (some a.2, a.2 :: rest)
    else
      let r := scanAssign needed rest
      (r.1, s :: r.2)

def Level.find_and_assign_spot (l : Level) (v : Vehicle) : Option ParkingSpot × Level :=
  let r := scanAssign v.required_spot_type l.spots
  (r.1, { l with spots := r.2 })

/-- `Ticket`: `uuid.uuid4()` is modelled by the facility's fresh counter, and
`datetime.now()` by the rational `now` argument threaded into `park_vehicle`. -/
structure Ticket where
  ticket_id : Nat
  vehicle_id : String
  spot_id : String
  entry_time : ℚ
deriving DecidableEq

structure Receipt where
  ticket_id : Nat
  exit_time : ℚ
  amount_due : ℚ
deriving DecidableEq

/-- Python dict assignment `d[k] = t`: overwrite in place or append. -/
def dictInsert (k : Nat) (t : Ticket) : List (Nat × Ticket) → List (Nat × Ticket)
  | [] => [(k, t)]
  | e :: rest => if e.1 = k then (k, t) :: rest else e :: dictInsert k t rest

/-- Python `d.pop(k, None)`: remove and return the entry if present. -/
def dictPop (k : Nat) : List (Nat × Ticket) → Option Ticket × List (Nat × Ticket)
  | [] => (none, [])
  | e :: rest =>
    if e.1 = k then (some e.2, rest)
    else
      let r := dictPop k rest
      (r.1, e :: r.2)

structure ParkingLot where
  levels : List Level
  tickets : List (Nat × Ticket)
  nextTicketId : Nat
deriving DecidableEq

def default_config : List (SpotType × Nat) :=
  [(.CAR, 10), (.BUS, 2), (.MOTORCYCLE, 5)]

/-- `levels_config or default_config`: `None` and the empty dict are falsy. -/
def configOf (levels_config : Option (List (SpotType × Nat))) : List (SpotType × Nat) :=
  match levels_config with
  | none => default_config
  | some c => if c = [] then default_config else c

/-- The body of `ParkingLot.__init__` on a not-yet-initialized instance:
two levels numbered 1 and 2, each built from the same configuration. -/
def ParkingLot.init (levels_config : Option (List (SpotType × Nat))) : ParkingLot :=
  { levels := (List.range 2).map fun i => Level.init (i + 1) (configOf levels_config)
    tickets := []
    nextTicketId := 0 }

/-- `ParkingLot.__new__` combined with `__init__`: if an instance already
exists it is returned as-is (`_initialized` makes `__init__` return early,
ignoring the new configuration); otherwise a fresh instance is initialized. -/
def ParkingLot.new (inst : Option ParkingLot)
    (levels_config : Option (List (SpotType × Nat))) : ParkingLot :=
  match inst with
  | some lot => lot
  | none => ParkingLot.init levels_config

inductive LotError
  | Capacity
  | InvalidTicket
deriving DecidableEq

/-- The level loop of `ParkingLot.park_vehicle`: try each level in order. -/
def parkScan (v : Vehicle) : List Level → Option ParkingSpot × List Level
  | [] => (none, [])
  | l :: rest =>
    let r := l.find_and_assign_spot v
    match r.1 with
    | some s => (some s, r.2 :: rest)
    | none =>
      let r2 := parkScan v rest
      (r2.1, r.2 :: r2.2)

/-- `ParkingLot.park_vehicle`: on success a fresh ticket is minted and
registered; `raise Exception("Parking Full")` is the `Capacity` error. -/
def ParkingLot.park_vehicle (lot : ParkingLot) (v : Vehicle) (now : ℚ) :
    Except LotError Ticket × ParkingLot :=
  match parkScan v lot.levels with
  | (some spot, levels2) =>
    let ticket : Ticket :=
      { ticket_id := lot.nextTicketId
        vehicle_id := v.vehicle_id
        spot_id := spot.spot_id
        entry_time := now }
    (.ok ticket,
     { levels := levels2
       tickets := dictInsert ticket.ticket_id ticket lot.tickets
       nextTicketId := lot.nextTicketId + 1 })
  | (none, levels2) => (.error .Capacity, { lot with levels := levels2 })

/-- The rate dictionary of `exit_vehicle` together with its
`rates.get(spot_type, 0)` access. -/
def rateTable (spot_type : Option SpotType) : ℚ :=
  match spot_type with
  | some .CAR => 2
  | some .BUS => 5
  | some .MOTORCYCLE => 1
  | none => 0

/-- Inner loop of `ParkingLot.get_spot_type` over one level's spots. -/
def findTypeIn (spot_id : String) : List ParkingSpot → Option SpotType
  | [] => none
  | s :: rest => if s.spot_id = spot_id then some s.spot_type else findTypeIn spot_id rest

def findTypeInLevels (spot_id : String) : List Level → Option SpotType
  | [] => none
  | l :: rest =>
    match findTypeIn spot_id l.spots with
    | some t => some t
    | none => findTypeInLevels spot_id rest

def ParkingLot.get_spot_type (lot : ParkingLot) (spot_id : String) : Option SpotType :=
  findTypeInLevels spot_id lot.levels

/-- The release loop of `exit_vehicle` inside one level: `break` leaves the
inner loop after the first spot with the matching id is released. -/
def releaseFirstIn (spot_id : String) : List ParkingSpot → List ParkingSpot
  | [] => []
  | s :: rest =>
    if s.spot_id = spot_id then s.release_spot :: rest
    else s :: releaseFirstIn spot_id rest

/-- The release loop of `exit_vehicle`: the outer loop visits every level
(the `break` only terminates the inner loop). -/
def releaseSpotId (spot_id : String) (levels : List Level) : List Level :=
  levels.map fun l => { l with spots := releaseFirstIn spot_id l.spots }

/-- `ParkingLot.exit_vehicle`: pop the ticket (absent id raises
`KeyError("Invalid Ticket")`, the `InvalidTicket` error), compute the fee
`max(1, hours) * rate`, release the spot, return the receipt. -/
def ParkingLot.exit_vehicle (lot : ParkingLot) (ticket_id : Nat) (now : ℚ) :
    Except LotError Receipt × ParkingLot :=
  match dictPop ticket_id lot.tickets with
  | (none, tickets2) => (.error .InvalidTicket, { lot with tickets := tickets2 })
  | (some ticket, tickets2) =>
    let hours : ℚ := now - ticket.entry_time
    let rate := rateTable (lot.get_spot_type ticket.spot_id)
    let amount := max 1 hours * rate
    (.ok { ticket_id := ticket.ticket_id, exit_time := now, amount_due := amount },
     { lot with tickets := tickets2, levels := releaseSpotId ticket.spot_id lot.levels })

/-- A public mutating operation of the facility, with its wall-clock time. -/
inductive Op
  | park (v : Vehicle) (now : ℚ)
  | exit (ticket_id : Nat) (now : ℚ)

/-- Applying one operation to the facility state (exceptions propagate to the
caller, leaving whatever state the operation produced). -/
def step (lot : ParkingLot) : Op → ParkingLot
  | .park v now => (lot.park_vehicle v now).2
  | .exit tid now => (lot.exit_vehicle tid now).2

def run (lot : ParkingLot) (ops : List Op) : ParkingLot :=
  ops.foldl step lot

/-- All spots of the facility in scan order: levels in construction order,
spots in creation order. -/
def allSpots (lot : ParkingLot) : List ParkingSpot :=
  lot.levels.flatMap Level.spots

def allSpotIds (lot : ParkingLot) : List String :=
  (allSpots lot).map ParkingSpot.spot_id

def occupiedSpotIds (lot : ParkingLot) : List String :=
  ((allSpots lot).filter fun s => s.is_occupied).map ParkingSpot.spot_id

def ticketSpotIds (lot : ParkingLot) : List String :=
  lot.tickets.map fun e => e.2.spot_id

def ticketKeys (lot : ParkingLot) : List Nat :=
  lot.tickets.map Prod.fst

/-- The spot predicate `park_vehicle` is looking for: right type and free. -/
def freeMatch (needed : SpotType) (s : ParkingSpot) : Bool :=
  decide (s.spot_type = needed) && !s.is_occupied

def freeCount (needed : SpotType) (lot : ParkingLot) : Nat :=
  ((allSpots lot).filter (freeMatch needed)).length

/-- A sequence of park calls with no exits in between. -/
def parkRun (now : ℚ) : ParkingLot → List Vehicle → List (Except LotError Ticket) × ParkingLot
  | lot, [] => ([], lot)
  | lot, v :: vs =>
    let r := lot.park_vehicle v now
    let rest := parkRun now r.2 vs
    (r.1 :: rest.1, rest.2)

deriving instance DecidableEq for Except

/-- The decimal digits of `n`, most significant first. -/
def decDigits (n : Nat) : List Nat :=
  if h : n < 10 then [n]
  else decDigits (n / 10) ++ [n % 10]
termination_by n
decreasing_by exact Nat.div_lt_self (by omega) (by omega)

def ofDecDigits (l : List Nat) : Nat :=
  l.foldl (fun a d => 10 * a + d) 0

/-- The single-letter class code `st.name[:1]` as a character. -/
def SpotType.codeChar : SpotType → Char
  | .MOTORCYCLE => 'M'
  | .CAR => 'C'
  | .BUS => 'B'

/-- The inductive invariant of the facility state: spot ids are distinct,
ticket keys are distinct and below the fresh counter, every outstanding
ticket is bound to an occupied spot, no two tickets share a spot, and every
occupied spot belongs to some outstanding ticket. -/
structure LotInv (lot : ParkingLot) : Prop where
  ids_nodup : (allSpotIds lot).Nodup
  keys_nodup : (ticketKeys lot).Nodup
  keys_lt : ∀ k ∈ ticketKeys lot, k < lot.nextTicketId
  t_spot : ∀ e ∈ lot.tickets,
    ∃ s ∈ allSpots lot, s.spot_id = e.2.spot_id ∧ s.is_occupied = true
  t_nodup : (ticketSpotIds lot).Nodup
  occ_t : ∀ s ∈ allSpots lot, s.is_occupied = true →
    ∃ e ∈ lot.tickets, e.2.spot_id = s.spot_id

/-- A spot id currently occupied somewhere in the facility. -/
def occupiedIn (lot : ParkingLot) (sid : String) : Prop :=
  ∃ s ∈ allSpots lot, s.spot_id = sid ∧ s.is_occupied = true

/-- Number of spots of a class, occupied or not. -/
def classCount (c : SpotType) (lot : ParkingLot) : Nat :=
  ((allSpots lot).filter fun s => s.spot_type = c).length

/-- The successfully issued tickets among a list of park results. -/
def okTickets : List (Except LotError Ticket) → List Ticket
  | [] => []
  | .ok t :: rest => t :: okTickets rest
  | .error _ :: rest => okTickets rest

/-- Number of spots of a class on one level. -/
def levelClassCount (c : SpotType) (l : Level) : Nat :=
  (l.spots.filter fun s => s.spot_type = c).length


/-! ### Injectivity of the decimal rendering used in spot ids -/

theorem toDigitsCore_eq_decDigits (fuel n : Nat) (ds : List Char) (h : n < fuel) :
    Nat.toDigitsCore 10 fuel n ds = (decDigits n).map Nat.digitChar ++ ds := by
  induction fuel generalizing n ds with
  | zero => omega
  | succ f ih =>
    rw [decDigits]
    by_cases h10 : n / 10 = 0
    · have hn : n < 10 := by omega
      simp only [Nat.toDigitsCore, h10, if_true, dif_pos hn, List.map, Nat.mod_eq_of_lt hn]
      rfl
    · have hn : ¬ n < 10 := by omega
      have hlt : n / 10 < f := by
        have := Nat.div_lt_self (n := n) (by omega) (show 1 < 10 by omega)
        omega
      simp only [Nat.toDigitsCore, h10, if_false, dif_neg hn]
      rw [ih _ _ hlt]
      simp

theorem natRepr_eq_decDigits (n : Nat) :
    Nat.repr n = ((decDigits n).map Nat.digitChar).asString := by
  rw [Nat.repr, Nat.toDigits, toDigitsCore_eq_decDigits _ _ _ (Nat.lt_succ_self n)]
  simp

theorem ofDecDigits_decDigits (n : Nat) : ofDecDigits (decDigits n) = n := by
  induction n using Nat.strong_induction_on with
  | _ n ih =>
    rw [decDigits]
    by_cases h : n < 10
    · rw [dif_pos h]
      simp [ofDecDigits]
    · rw [dif_neg h]
      have hd : n / 10 < n := Nat.div_lt_self (by omega) (by omega)
      unfold ofDecDigits
      rw [List.foldl_append]
      have := ih _ hd
      unfold ofDecDigits at this
      rw [this]
      simp only [List.foldl]
      omega

theorem decDigits_injective : Function.Injective decDigits := by
  intro a b h
  have := congrArg ofDecDigits h
  rwa [ofDecDigits_decDigits, ofDecDigits_decDigits] at this

theorem decDigits_lt_ten (n : Nat) : ∀ d ∈ decDigits n, d < 10 := by
  induction n using Nat.strong_induction_on with
  | _ n ih =>
    rw [decDigits]
    by_cases h : n < 10
    · rw [dif_pos h]
      intro d hd
      simp at hd
      omega
    · rw [dif_neg h]
      intro d hd
      rcases List.mem_append.1 hd with h1 | h2
      · exact ih _ (Nat.div_lt_self (by omega) (by omega)) d h1
      · simp at h2
        omega

theorem digitChar_inj_lt :
    ∀ a, a < 10 → ∀ b, b < 10 → Nat.digitChar a = Nat.digitChar b → a = b := by
  decide

theorem map_digitChar_inj : ∀ (l1 l2 : List Nat), (∀ d ∈ l1, d < 10) → (∀ d ∈ l2, d < 10) →
    l1.map Nat.digitChar = l2.map Nat.digitChar → l1 = l2 := by
  intro l1
  induction l1 with
  | nil =>
    intro l2 _ _ h
    cases l2 with
    | nil => rfl
    | cons b bs => simp at h
  | cons a as ih =>
    intro l2 h1 h2 h
    cases l2 with
    | nil => simp at h
    | cons b bs =>
      simp only [List.map, List.cons.injEq] at h
      have hab : a = b :=
        digitChar_inj_lt a (h1 a (by simp)) b (h2 b (by simp)) h.1
      have : as = bs := by
        refine ih bs (fun d hd => h1 d (by simp [hd])) (fun d hd => h2 d (by simp [hd])) h.2
      rw [hab, this]

theorem natRepr_injective : Function.Injective Nat.repr := by
  intro a b h
  rw [natRepr_eq_decDigits, natRepr_eq_decDigits] at h
  have hdata : (decDigits a).map Nat.digitChar = (decDigits b).map Nat.digitChar :=
    congrArg String.data h
  exact decDigits_injective
    (map_digitChar_inj _ _ (decDigits_lt_ten a) (decDigits_lt_ten b) hdata)

/-- Every character of a rendered natural number is a decimal digit. -/
theorem natRepr_data_digits (n : Nat) :
    ∀ c ∈ (Nat.repr n).data, c ∈ ['0', '1', '2', '3', '4', '5', '6', '7', '8', '9'] := by
  rw [natRepr_eq_decDigits]
  intro c hc
  have : c ∈ (decDigits n).map Nat.digitChar := hc
  rcases List.mem_map.1 this with ⟨d, hd, rfl⟩
  have := decDigits_lt_ten n d hd
  interval_cases d <;> decide

/-! ### Distinctness of constructed spot ids -/

theorem marker_split_inj {α : Type} (m : α) :
    ∀ (a1 a2 b1 b2 : List α), m ∉ a1 → m ∉ a2 →
      a1 ++ m :: b1 = a2 ++ m :: b2 → a1 = a2 ∧ b1 = b2 := by
  intro a1
  induction a1 with
  | nil =>
    intro a2 b1 b2 _ h2 h
    cases a2 with
    | nil => simpa using h
    | cons y ys =>
      simp only [List.nil_append, List.cons_append, List.cons.injEq] at h
      cases h.1
      exact absurd (List.mem_cons_self _ _) h2
  | cons x xs ih =>
    intro a2 b1 b2 h1 h2 h
    cases a2 with
    | nil =>
      simp only [List.nil_append, List.cons_append, List.cons.injEq] at h
      cases h.1
      exact absurd (List.mem_cons_self _ _) h1
    | cons y ys =>
      simp only [List.cons_append, List.cons.injEq] at h
      have hin := ih ys b1 b2 (fun hm => h1 (List.mem_cons_of_mem _ hm))
        (fun hm => h2 (List.mem_cons_of_mem _ hm)) h.2
      exact ⟨by rw [h.1, hin.1], hin.2⟩

theorem name_take_one (st : SpotType) : st.name.take 1 = ⟨[st.codeChar]⟩ := by
  cases st <;> decide

theorem sidStr_data (l : Nat) (st : SpotType) (i : Nat) :
    (sidStr l st i).data =
      'L' :: ((Nat.repr l).data ++ '-' :: st.codeChar :: (Nat.repr i).data) := by
  rw [sidStr, name_take_one]
  simp [String.data_append]

theorem dash_not_mem_natRepr (n : Nat) : '-' ∉ (Nat.repr n).data := by
  intro h
  exact absurd (natRepr_data_digits n _ h) (by decide)

theorem codeChar_inj : ∀ s t : SpotType, s.codeChar = t.codeChar → s = t := by
  intro s t
  cases s <;> cases t <;> decide

theorem sidStr_inj {l1 l2 : Nat} {st1 st2 : SpotType} {i1 i2 : Nat}
    (h : sidStr l1 st1 i1 = sidStr l2 st2 i2) : l1 = l2 ∧ st1 = st2 ∧ i1 = i2 := by
  have hd := congrArg String.data h
  rw [sidStr_data, sidStr_data] at hd
  have hd2 : (Nat.repr l1).data ++ '-' :: st1.codeChar :: (Nat.repr i1).data =
      (Nat.repr l2).data ++ '-' :: st2.codeChar :: (Nat.repr i2).data := by
    simpa using hd
  have hsplit := marker_split_inj '-' _ _ _ _
    (dash_not_mem_natRepr l1) (dash_not_mem_natRepr l2) hd2
  have hl : l1 = l2 := natRepr_injective (String.ext hsplit.1)
  obtain ⟨hc, hR⟩ : st1.codeChar = st2.codeChar ∧ (Nat.repr i1).data = (Nat.repr i2).data := by
    simpa using hsplit.2
  have hst : st1 = st2 := codeChar_inj _ _ hc
  have hi : i1 = i2 := natRepr_injective (String.ext hR)
  exact ⟨hl, hst, hi⟩

theorem Level_init_spot_ids (lid : Nat) (cfg : List (SpotType × Nat)) :
    (Level.init lid cfg).spots.map ParkingSpot.spot_id =
      cfg.flatMap fun p => (List.range p.2).map fun i => sidStr lid p.1 (i + 1) := by
  simp [Level.init, mkSpots, List.map_flatMap, List.map_map]
  rfl

theorem Level_init_ids_nodup (lid : Nat) (cfg : List (SpotType × Nat))
    (hk : (cfg.map Prod.fst).Nodup) :
    ((Level.init lid cfg).spots.map ParkingSpot.spot_id).Nodup := by
  rw [Level_init_spot_ids, List.nodup_flatMap]
  constructor
  · intro p _
    refine List.Nodup.map ?_ (List.nodup_range _)
    intro a b hab
    have := (sidStr_inj hab).2.2
    omega
  · have hp : List.Pairwise (fun p q : SpotType × Nat => p.1 ≠ q.1) cfg :=
      (List.pairwise_map).1 hk
    refine hp.imp ?_
    intro p q hpq s hs1 hs2
    rcases List.mem_map.1 hs1 with ⟨a, _, rfl⟩
    rcases List.mem_map.1 hs2 with ⟨b, _, hb⟩
    exact hpq (sidStr_inj hb.symm).2.1

theorem allSpotIds_init (cfgOpt : Option (List (SpotType × Nat))) :
    allSpotIds (ParkingLot.init cfgOpt) =
      (Level.init 1 (configOf cfgOpt)).spots.map ParkingSpot.spot_id ++
      (Level.init 2 (configOf cfgOpt)).spots.map ParkingSpot.spot_id := by
  simp [allSpotIds, allSpots, ParkingLot.init, List.range_succ, List.map_append]

theorem allSpotIds_init_nodup (cfgOpt : Option (List (SpotType × Nat)))
    (hk : ((configOf cfgOpt).map Prod.fst).Nodup) :
    (allSpotIds (ParkingLot.init cfgOpt)).Nodup := by
  rw [allSpotIds_init, List.nodup_append]
  refine ⟨Level_init_ids_nodup 1 _ hk, Level_init_ids_nodup 2 _ hk, ?_⟩
  intro s hs1 hs2
  rw [Level_init_spot_ids] at hs1 hs2
  rcases List.mem_flatMap.1 hs1 with ⟨p, _, hp⟩
  rcases List.mem_map.1 hp with ⟨a, _, rfl⟩
  rcases List.mem_flatMap.1 hs2 with ⟨q, _, hq⟩
  rcases List.mem_map.1 hq with ⟨b, _, hb⟩
  have := (sidStr_inj hb.symm).1
  omega

theorem init_spots_free (cfgOpt : Option (List (SpotType × Nat))) :
    ∀ s ∈ allSpots (ParkingLot.init cfgOpt), s.is_occupied = false := by
  intro s hs
  rcases List.mem_flatMap.1 hs with ⟨l, hl, hsl⟩
  simp only [ParkingLot.init, List.mem_map] at hl
  rcases hl with ⟨i, _, rfl⟩
  simp only [Level.init] at hsl
  rcases List.mem_flatMap.1 hsl with ⟨p, _, hp⟩
  rcases List.mem_map.1 hp with ⟨a, _, rfl⟩
  rfl

/-! ### The claim scan: `scanAssign` and `parkScan` -/

theorem assign_spot_fst (s : ParkingSpot) : (s.assign_spot).1 = !s.is_occupied := by
  cases h : s.is_occupied <;> simp [ParkingSpot.assign_spot, h]

theorem freeMatch_iff (needed : SpotType) (s : ParkingSpot) :
    freeMatch needed s = true ↔ s.spot_type = needed ∧ s.is_occupied = false := by
  simp [freeMatch]

theorem scanAssign_cons_pos (needed : SpotType) (s : ParkingSpot) (rest : List ParkingSpot)
    (h : freeMatch needed s = true) :
    scanAssign needed (s :: rest) =
      (some { s with is_occupied := true }, { s with is_occupied := true } :: rest) := by
  rcases (freeMatch_iff needed s).1 h with ⟨h1, h2⟩
  simp [scanAssign, ParkingSpot.assign_spot, h1, h2]

theorem scanAssign_cons_neg (needed : SpotType) (s : ParkingSpot) (rest : List ParkingSpot)
    (h : freeMatch needed s = false) :
    scanAssign needed (s :: rest) =
      ((scanAssign needed rest).1, s :: (scanAssign needed rest).2) := by
  show (if s.spot_type = needed ∧ (s.assign_spot).1 = true then _ else _) = _
  rw [if_neg]
  intro hc
  rw [assign_spot_fst] at hc
  have : freeMatch needed s = true := by
    rw [freeMatch_iff]
    exact ⟨hc.1, by simpa using hc.2⟩
  rw [h] at this
  cases this

theorem scanAssign_of_all_neg (needed : SpotType) :
    ∀ xs : List ParkingSpot, (∀ s ∈ xs, freeMatch needed s = false) →
      scanAssign needed xs = (none, xs) := by
  intro xs
  induction xs with
  | nil => intro _; rfl
  | cons s rest ih =>
    intro h
    rw [scanAssign_cons_neg needed s rest (h s (by simp)),
      ih (fun u hu => h u (by simp [hu]))]

theorem scanAssign_fst_none_iff (needed : SpotType) (xs : List ParkingSpot) :
    (scanAssign needed xs).1 = none ↔ ∀ s ∈ xs, freeMatch needed s = false := by
  constructor
  · induction xs with
    | nil => intro _ s hs; cases hs
    | cons s rest ih =>
      intro h u hu
      by_cases hf : freeMatch needed s = true
      · rw [scanAssign_cons_pos needed s rest hf] at h
        cases h
      · rcases List.mem_cons.1 hu with rfl | hu2
        · simpa using hf
        · rw [scanAssign_cons_neg needed s rest (by simpa using hf)] at h
          exact ih h u hu2
  · intro h
    rw [scanAssign_of_all_neg needed xs h]

theorem scanAssign_none_snd (needed : SpotType) (xs : List ParkingSpot)
    (h : (scanAssign needed xs).1 = none) : (scanAssign needed xs).2 = xs := by
  rw [scanAssign_of_all_neg needed xs ((scanAssign_fst_none_iff needed xs).1 h)]

theorem scanAssign_some_spec (needed : SpotType) :
    ∀ (xs : List ParkingSpot) (r : ParkingSpot),
      (scanAssign needed xs).1 = some r →
      ∃ l1 s l2, xs = l1 ++ s :: l2 ∧ (∀ u ∈ l1, freeMatch needed u = false) ∧
        freeMatch needed s = true ∧ r = { s with is_occupied := true } ∧
        (scanAssign needed xs).2 = l1 ++ { s with is_occupied := true } :: l2 := by
  intro xs
  induction xs with
  | nil => intro r h; cases h
  | cons s rest ih =>
    intro r h
    by_cases hf : freeMatch needed s = true
    · rw [scanAssign_cons_pos needed s rest hf] at h ⊢
      refine ⟨[], s, rest, by simp, by simp, hf, ?_, by simp⟩
      simpa using h.symm
    · have hf2 : freeMatch needed s = false := by simpa using hf
      rw [scanAssign_cons_neg needed s rest hf2] at h ⊢
      rcases ih r h with ⟨l1, u, l2, hxs, hl1, hu, hr, hsnd⟩
      exact ⟨s :: l1, u, l2, by simp [hxs], by
        intro w hw
        rcases List.mem_cons.1 hw with rfl | hw2
        · exact hf2
        · exact hl1 w hw2, hu, hr, by simp [hsnd]⟩

theorem scanAssign_append_some (needed : SpotType) (xs ys : List ParkingSpot) (r : ParkingSpot)
    (h : (scanAssign needed xs).1 = some r) :
    scanAssign needed (xs ++ ys) = (some r, (scanAssign needed xs).2 ++ ys) := by
  induction xs with
  | nil => cases h
  | cons s rest ih =>
    by_cases hf : freeMatch needed s = true
    · rw [scanAssign_cons_pos needed s rest hf] at h
      rw [List.cons_append, scanAssign_cons_pos needed s _ hf,
        scanAssign_cons_pos needed s rest hf]
      cases h
      simp
    · have hf2 : freeMatch needed s = false := by simpa using hf
      rw [scanAssign_cons_neg needed s rest hf2] at h
      rw [List.cons_append, scanAssign_cons_neg needed s _ hf2,
        scanAssign_cons_neg needed s rest hf2, ih h]
      simp

theorem scanAssign_append_none (needed : SpotType) (xs ys : List ParkingSpot)
    (h : (scanAssign needed xs).1 = none) :
    scanAssign needed (xs ++ ys) =
      ((scanAssign needed ys).1, xs ++ (scanAssign needed ys).2) := by
  have hall := (scanAssign_fst_none_iff needed xs).1 h
  induction xs with
  | nil => simp
  | cons s rest ih =>
    have hf : freeMatch needed s = false := hall s (by simp)
    rw [List.cons_append, scanAssign_cons_neg needed s _ hf]
    rw [ih ((scanAssign_fst_none_iff needed rest).2 (fun u hu => hall u (by simp [hu])))
      (fun u hu => hall u (by simp [hu]))]
    simp

theorem parkScan_spec (v : Vehicle) (levels : List Level) :
    (parkScan v levels).1 = (scanAssign v.required_spot_type (levels.flatMap Level.spots)).1 ∧
    (parkScan v levels).2.flatMap Level.spots =
      (scanAssign v.required_spot_type (levels.flatMap Level.spots)).2 := by
  induction levels with
  | nil => exact ⟨rfl, rfl⟩
  | cons l rest ih =>
    rcases hfa : (scanAssign v.required_spot_type l.spots).1 with _ | r
    · have hsnd := scanAssign_none_snd _ _ hfa
      have happ := scanAssign_append_none v.required_spot_type l.spots
        (rest.flatMap Level.spots) hfa
      constructor
      · calc (parkScan v (l :: rest)).1
            = (parkScan v rest).1 := by
              simp only [parkScan, Level.find_and_assign_spot, hfa]
          _ = (scanAssign v.required_spot_type (rest.flatMap Level.spots)).1 := ih.1
          _ = (scanAssign v.required_spot_type ((l :: rest).flatMap Level.spots)).1 := by
              rw [List.flatMap_cons, happ]
      · calc (parkScan v (l :: rest)).2.flatMap Level.spots
            = (scanAssign v.required_spot_type l.spots).2 ++
                (parkScan v rest).2.flatMap Level.spots := by
              simp only [parkScan, Level.find_and_assign_spot, hfa, List.flatMap_cons]
          _ = l.spots ++ (scanAssign v.required_spot_type (rest.flatMap Level.spots)).2 := by
              rw [hsnd, ih.2]
          _ = (scanAssign v.required_spot_type ((l :: rest).flatMap Level.spots)).2 := by
              rw [List.flatMap_cons, happ]
    · have happ := scanAssign_append_some v.required_spot_type l.spots
        (rest.flatMap Level.spots) r hfa
      constructor
      · calc (parkScan v (l :: rest)).1
            = some r := by
              simp only [parkScan, Level.find_and_assign_spot, hfa]
          _ = (scanAssign v.required_spot_type ((l :: rest).flatMap Level.spots)).1 := by
              rw [List.flatMap_cons, happ]
      · calc (parkScan v (l :: rest)).2.flatMap Level.spots
            = (scanAssign v.required_spot_type l.spots).2 ++ rest.flatMap Level.spots := by
              simp only [parkScan, Level.find_and_assign_spot, hfa, List.flatMap_cons]
          _ = (scanAssign v.required_spot_type ((l :: rest).flatMap Level.spots)).2 := by
              rw [List.flatMap_cons, happ]

theorem parkScan_none_snd (v : Vehicle) (levels : List Level)
    (h : (parkScan v levels).1 = none) : (parkScan v levels).2 = levels := by
  induction levels with
  | nil => rfl
  | cons l rest ih =>
    rcases hfa : (scanAssign v.required_spot_type l.spots).1 with _ | r
    · have hsnd := scanAssign_none_snd _ _ hfa
      simp only [parkScan, Level.find_and_assign_spot, hfa] at h ⊢
      rw [hsnd, ih h]
    · simp only [parkScan, Level.find_and_assign_spot, hfa] at h
      simp at h

/-- On a capacity failure `park_vehicle` raises and leaves the state intact:
there is no free matching spot, and the returned facility is the input one. -/
theorem park_vehicle_fail_spec (lot : ParkingLot) (v : Vehicle) (now : ℚ)
    (h : (scanAssign v.required_spot_type (allSpots lot)).1 = none) :
    lot.park_vehicle v now = (.error .Capacity, lot) := by
  have h1 : (parkScan v lot.levels).1 = none := by
    rw [(parkScan_spec v lot.levels).1]
    exact h
  have h2 := parkScan_none_snd v lot.levels h1
  rcases hps : parkScan v lot.levels with ⟨fst, snd⟩
  have hf : fst = none := by
    have := h1
    rw [hps] at this
    exact this
  have hs : snd = lot.levels := by
    have := h2
    rw [hps] at this
    exact this
  subst hf
  subst hs
  unfold ParkingLot.park_vehicle
  rw [hps]

/-- On success, `park_vehicle` claims exactly the first free matching spot in
scan order, mints the fresh ticket for it, and appends it to the registry. -/
theorem park_vehicle_ok_spec (lot : ParkingLot) (v : Vehicle) (now : ℚ) (t : Ticket)
    (lot' : ParkingLot) (h : lot.park_vehicle v now = (.ok t, lot')) :
    t.ticket_id = lot.nextTicketId ∧ t.vehicle_id = v.vehicle_id ∧ t.entry_time = now ∧
    lot'.tickets = dictInsert lot.nextTicketId t lot.tickets ∧
    lot'.nextTicketId = lot.nextTicketId + 1 ∧
    ∃ l1 s l2, allSpots lot = l1 ++ s :: l2 ∧
      (∀ u ∈ l1, freeMatch v.required_spot_type u = false) ∧
      freeMatch v.required_spot_type s = true ∧
      t.spot_id = s.spot_id ∧
      allSpots lot' = l1 ++ { s with is_occupied := true } :: l2 := by
  rcases hps : parkScan v lot.levels with ⟨fst, snd⟩
  have hfst : fst = (scanAssign v.required_spot_type (allSpots lot)).1 := by
    show fst = (scanAssign v.required_spot_type (lot.levels.flatMap Level.spots)).1
    rw [← (parkScan_spec v lot.levels).1, hps]
  have hsnd : snd.flatMap Level.spots = (scanAssign v.required_spot_type (allSpots lot)).2 := by
    show _ = (scanAssign v.required_spot_type (lot.levels.flatMap Level.spots)).2
    rw [← (parkScan_spec v lot.levels).2, hps]
  unfold ParkingLot.park_vehicle at h
  rw [hps] at h
  rcases fst with _ | spot
  · cases h
  · simp only [Prod.mk.injEq] at h
    rcases h with ⟨hok, hlot⟩
    have ht : t = ⟨lot.nextTicketId, v.vehicle_id, spot.spot_id, now⟩ := by
      injection hok with h2
      exact h2.symm
    rcases scanAssign_some_spec v.required_spot_type (allSpots lot) spot hfst.symm
      with ⟨l1, s, l2, hsplit, hl1, hs, hspot, hsnd2⟩
    refine ⟨by rw [ht], by rw [ht], by rw [ht], ?_, ?_, l1, s, l2, hsplit, hl1, hs, ?_, ?_⟩
    · rw [← hlot, ht]
    · rw [← hlot]
    · rw [ht, hspot]
    · rw [← hlot]
      show snd.flatMap Level.spots = _
      rw [hsnd, hsnd2]

/-- `park_vehicle` succeeds exactly when some free spot of the needed type
exists. -/
theorem park_vehicle_ok_iff (lot : ParkingLot) (v : Vehicle) (now : ℚ) :
    (∃ t lot', lot.park_vehicle v now = (.ok t, lot')) ↔
      ∃ s ∈ allSpots lot, freeMatch v.required_spot_type s = true := by
  constructor
  · rintro ⟨t, lot', h⟩
    rcases park_vehicle_ok_spec lot v now t lot' h with
      ⟨_, _, _, _, _, l1, s, l2, hsplit, _, hs, _, _⟩
    exact ⟨s, by rw [hsplit]; simp, hs⟩
  · intro hex
    rcases hscan : (scanAssign v.required_spot_type (allSpots lot)).1 with _ | r
    · rcases hex with ⟨s, hs, hfm⟩
      have := (scanAssign_fst_none_iff _ _).1 hscan s hs
      rw [hfm] at this
      cases this
    · rcases hps : parkScan v lot.levels with ⟨fst, snd⟩
      have hfst : fst = some r := by
        rw [show fst = (parkScan v lot.levels).1 by rw [hps], (parkScan_spec v lot.levels).1]
        exact hscan
      unfold ParkingLot.park_vehicle
      rw [hps, hfst]
      exact ⟨_, _, rfl⟩

/-! ### Registry association-list lemmas -/

theorem dictPop_fst_none_iff (k : Nat) (l : List (Nat × Ticket)) :
    (dictPop k l).1 = none ↔ k ∉ l.map Prod.fst := by
  induction l with
  | nil => simp [dictPop]
  | cons e rest ih =>
    by_cases he : e.1 = k
    · simp [dictPop, he]
    · have hstep : (dictPop k (e :: rest)).1 = (dictPop k rest).1 := by
        simp [dictPop, he]
      rw [hstep, ih, List.map_cons, List.mem_cons, not_or]
      constructor
      · intro h2
        exact ⟨fun hk => he hk.symm, h2⟩
      · intro h2
        exact h2.2

theorem dictPop_none_snd (k : Nat) (l : List (Nat × Ticket))
    (h : (dictPop k l).1 = none) : (dictPop k l).2 = l := by
  induction l with
  | nil => rfl
  | cons e rest ih =>
    by_cases he : e.1 = k
    · simp [dictPop, he] at h
    · simp only [dictPop, if_neg he] at h ⊢
      rw [ih h]

theorem dictPop_some_spec (k : Nat) (l : List (Nat × Ticket)) (t : Ticket)
    (h : (dictPop k l).1 = some t) :
    ∃ d1 d2, l = d1 ++ (k, t) :: d2 ∧ k ∉ d1.map Prod.fst ∧
      (dictPop k l).2 = d1 ++ d2 := by
  induction l with
  | nil => cases h
  | cons e rest ih =>
    by_cases he : e.1 = k
    · simp only [dictPop, if_pos he] at h ⊢
      cases h
      exact ⟨[], rest, by
        rcases e with ⟨k0, t0⟩
        cases he
        rfl, by simp, rfl⟩
    · simp only [dictPop, if_neg he] at h ⊢
      rcases ih h with ⟨d1, d2, hsplit, hnk, hsnd⟩
      exact ⟨e :: d1, d2, by rw [hsplit]; rfl, by
        simp only [List.map_cons, List.mem_cons]
        rintro (h1 | h2)
        · exact he h1.symm
        · exact hnk h2, by rw [hsnd, List.cons_append]⟩

theorem dictInsert_fresh (k : Nat) (t : Ticket) (l : List (Nat × Ticket))
    (h : k ∉ l.map Prod.fst) : dictInsert k t l = l ++ [(k, t)] := by
  induction l with
  | nil => rfl
  | cons e rest ih =>
    simp only [List.map_cons, List.mem_cons] at h
    push_neg at h
    simp only [dictInsert, if_neg (fun he : e.1 = k => h.1 he.symm)]
    rw [ih h.2, List.cons_append]

theorem dictPop_append_fresh (k : Nat) (t : Ticket) (l : List (Nat × Ticket))
    (h : k ∉ l.map Prod.fst) : dictPop k (l ++ [(k, t)]) = (some t, l) := by
  induction l with
  | nil => simp [dictPop]
  | cons e rest ih =>
    simp only [List.map_cons, List.mem_cons] at h
    push_neg at h
    have hstep : dictPop k ((e :: rest) ++ [(k, t)]) =
        ((dictPop k (rest ++ [(k, t)])).1, e :: (dictPop k (rest ++ [(k, t)])).2) := by
      show dictPop k (e :: (rest ++ [(k, t)])) = _
      simp only [dictPop, if_neg (fun he : e.1 = k => h.1 he.symm)]
    rw [hstep, ih h.2]

/-! ### Release lemmas -/

theorem releaseFirstIn_of_absent (sid : String) (xs : List ParkingSpot)
    (h : ∀ s ∈ xs, s.spot_id ≠ sid) : releaseFirstIn sid xs = xs := by
  induction xs with
  | nil => rfl
  | cons s rest ih =>
    simp only [releaseFirstIn, if_neg (h s (by simp))]
    rw [ih (fun u hu => h u (by simp [hu]))]

theorem map_release_id (sid : String) (xs : List ParkingSpot)
    (h : ∀ u ∈ xs, u.spot_id ≠ sid) :
    (xs.map fun s => if s.spot_id = sid then s.release_spot else s) = xs := by
  induction xs with
  | nil => rfl
  | cons u rest ih =>
    simp only [List.map_cons]
    rw [if_neg (h u (by simp)), ih (fun w hw => h w (by simp [hw]))]

theorem releaseFirstIn_nodup (sid : String) (xs : List ParkingSpot)
    (h : (xs.map ParkingSpot.spot_id).Nodup) :
    releaseFirstIn sid xs =
      xs.map fun s => if s.spot_id = sid then s.release_spot else s := by
  induction xs with
  | nil => rfl
  | cons s rest ih =>
    simp only [List.map_cons, List.nodup_cons] at h
    by_cases hs : s.spot_id = sid
    · simp only [releaseFirstIn, if_pos hs, List.map_cons, if_pos hs]
      have habs : ∀ u ∈ rest, u.spot_id ≠ sid := by
        intro u hu hu2
        exact h.1 (by rw [← hs] at hu2; exact List.mem_map.2 ⟨u, hu, hu2⟩)
      rw [map_release_id sid rest habs]
    · simp only [releaseFirstIn, if_neg hs, List.map_cons, if_neg hs]
      rw [ih h.2]

theorem releaseSpotId_flatMap (sid : String) (levels : List Level)
    (h : ((levels.flatMap Level.spots).map ParkingSpot.spot_id).Nodup) :
    (releaseSpotId sid levels).flatMap Level.spots =
      (levels.flatMap Level.spots).map fun s =>
        if s.spot_id = sid then s.release_spot else s := by
  induction levels with
  | nil => rfl
  | cons l rest ih =>
    simp only [List.flatMap_cons, List.map_append] at h
    rcases List.nodup_append.1 h with ⟨h1, h2, _⟩
    show releaseFirstIn sid l.spots ++ (releaseSpotId sid rest).flatMap Level.spots =
      (l.spots ++ rest.flatMap Level.spots).map _
    rw [List.map_append, releaseFirstIn_nodup sid l.spots h1, ih h2]

/-! ### `exit_vehicle` specification lemmas -/

/-- An exit with an id absent from the registry raises `InvalidTicket` and
leaves the whole facility state unchanged. -/
theorem exit_vehicle_fail_spec (lot : ParkingLot) (tid : Nat) (now : ℚ)
    (h : tid ∉ ticketKeys lot) :
    lot.exit_vehicle tid now = (.error .InvalidTicket, lot) := by
  have h1 : (dictPop tid lot.tickets).1 = none := (dictPop_fst_none_iff _ _).2 h
  have h2 := dictPop_none_snd tid lot.tickets h1
  rcases hdp : dictPop tid lot.tickets with ⟨fst, snd⟩
  have hf : fst = none := by
    have := h1
    rw [hdp] at this
    exact this
  have hs : snd = lot.tickets := by
    have := h2
    rw [hdp] at this
    exact this
  subst hf
  subst hs
  unfold ParkingLot.exit_vehicle
  rw [hdp]

/-- A successful exit pops the ticket, charges `max(1, hours) * rate` for the
class of the bound spot, and releases that spot's id on every level. -/
theorem exit_vehicle_ok_spec (lot : ParkingLot) (tid : Nat) (now : ℚ) (t : Ticket)
    (h : (dictPop tid lot.tickets).1 = some t) :
    lot.exit_vehicle tid now =
      (.ok { ticket_id := t.ticket_id, exit_time := now,
             amount_due := max 1 (now - t.entry_time) *
               rateTable (lot.get_spot_type t.spot_id) },
       { lot with tickets := (dictPop tid lot.tickets).2,
                  levels := releaseSpotId t.spot_id lot.levels }) := by
  rcases hdp : dictPop tid lot.tickets with ⟨fst, snd⟩
  have hf : fst = some t := by
    have := h
    rw [hdp] at this
    exact this
  subst hf
  unfold ParkingLot.exit_vehicle
  rw [hdp]

theorem park_vehicle_error_spec (lot : ParkingLot) (v : Vehicle) (now : ℚ) (e : LotError)
    (lot' : ParkingLot) (h : lot.park_vehicle v now = (.error e, lot')) :
    e = .Capacity ∧ lot' = lot ∧
      ∀ s ∈ allSpots lot, freeMatch v.required_spot_type s = false := by
  rcases hscan : (scanAssign v.required_spot_type (allSpots lot)).1 with _ | r
  · have hfail := park_vehicle_fail_spec lot v now hscan
    rw [h] at hfail
    simp only [Prod.mk.injEq] at hfail
    have he : e = .Capacity := by
      have := hfail.1
      injection this with h2
    exact ⟨he, hfail.2, (scanAssign_fst_none_iff _ _).1 hscan⟩
  · exfalso
    rcases scanAssign_some_spec _ _ _ hscan with ⟨l1, s, l2, hsplit, _, hs, _, _⟩
    rcases (park_vehicle_ok_iff lot v now).2 ⟨s, by rw [hsplit]; simp, hs⟩ with ⟨t, lot2, hok⟩
    rw [h] at hok
    simp only [Prod.mk.injEq] at hok
    cases hok.1

theorem exit_vehicle_error_spec (lot : ParkingLot) (tid : Nat) (now : ℚ) (e : LotError)
    (lot' : ParkingLot) (h : lot.exit_vehicle tid now = (.error e, lot')) :
    e = .InvalidTicket ∧ lot' = lot ∧ tid ∉ ticketKeys lot := by
  rcases hdp : (dictPop tid lot.tickets).1 with _ | t
  · have hni : tid ∉ ticketKeys lot := (dictPop_fst_none_iff _ _).1 hdp
    have hfail := exit_vehicle_fail_spec lot tid now hni
    rw [h] at hfail
    simp only [Prod.mk.injEq] at hfail
    have he : e = .InvalidTicket := by
      have := hfail.1
      injection this with h2
    exact ⟨he, hfail.2, hni⟩
  · exfalso
    have hok := exit_vehicle_ok_spec lot tid now t hdp
    rw [h] at hok
    simp only [Prod.mk.injEq] at hok
    cases hok.1

/-! ### The registry/occupancy bijection invariant -/

theorem LotInv_init (cfgOpt : Option (List (SpotType × Nat)))
    (hk : ((configOf cfgOpt).map Prod.fst).Nodup) : LotInv (ParkingLot.init cfgOpt) := by
  refine ⟨allSpotIds_init_nodup cfgOpt hk, by simp [ticketKeys, ParkingLot.init],
    by simp [ticketKeys, ParkingLot.init], by simp [ParkingLot.init],
    by simp [ticketSpotIds, ParkingLot.init], ?_⟩
  intro s hs hocc
  rw [init_spots_free cfgOpt s hs] at hocc
  cases hocc

theorem LotInv_park (lot : ParkingLot) (v : Vehicle) (now : ℚ) (t : Ticket) (lot' : ParkingLot)
    (hinv : LotInv lot) (h : lot.park_vehicle v now = (.ok t, lot')) : LotInv lot' := by
  rcases park_vehicle_ok_spec lot v now t lot' h with
    ⟨htid, _, _, htks, hnext, l1, s, l2, hA, _, hs, hsid, hA'⟩
  have hfree : s.is_occupied = false := ((freeMatch_iff _ s).1 hs).2
  have hfresh : lot.nextTicketId ∉ ticketKeys lot := by
    intro hmem
    exact absurd rfl (Nat.ne_of_lt (hinv.keys_lt _ hmem))
  have htks2 : lot'.tickets = lot.tickets ++ [(lot.nextTicketId, t)] := by
    rw [htks, dictInsert_fresh _ _ _ hfresh]
  have hkeys2 : ticketKeys lot' = ticketKeys lot ++ [lot.nextTicketId] := by
    show lot'.tickets.map Prod.fst = _
    rw [htks2]
    simp [ticketKeys]
  have hids : allSpotIds lot' = allSpotIds lot := by
    unfold allSpotIds
    rw [hA, hA']
    simp
  have hmid : s.spot_id ∉ l1.map ParkingSpot.spot_id ++ l2.map ParkingSpot.spot_id := by
    have hn : (allSpotIds lot).Nodup := hinv.ids_nodup
    unfold allSpotIds at hn
    rw [hA] at hn
    simp only [List.map_append, List.map_cons] at hn
    exact (List.nodup_cons.1 (List.nodup_middle.1 hn)).1
  refine ⟨?_, ?_, ?_, ?_, ?_, ?_⟩
  · rw [hids]
    exact hinv.ids_nodup
  · rw [hkeys2, List.nodup_append]
    refine ⟨hinv.keys_nodup, List.nodup_singleton _, ?_⟩
    intro k hk1 hk2
    simp only [List.mem_singleton] at hk2
    subst hk2
    exact hfresh hk1
  · intro k hk
    rw [hkeys2] at hk
    rw [hnext]
    rcases List.mem_append.1 hk with h1 | h2
    · exact Nat.lt_succ_of_lt (hinv.keys_lt k h1)
    · simp only [List.mem_singleton] at h2
      subst h2
      exact Nat.lt_succ_self _
  · intro e he
    rw [htks2] at he
    rcases List.mem_append.1 he with hold | hnew
    · rcases hinv.t_spot e hold with ⟨s0, hs0mem, hs0id, hs0occ⟩
      rw [hA] at hs0mem
      rcases List.mem_append.1 hs0mem with h1 | h12
      · exact ⟨s0, by rw [hA']; exact List.mem_append_left _ h1, hs0id, hs0occ⟩
      · rcases List.mem_cons.1 h12 with rfl | h2
        · exact absurd hs0occ (by rw [hfree]; simp)
        · exact ⟨s0, by
            rw [hA']
            exact List.mem_append_right _ (List.mem_cons_of_mem _ h2), hs0id, hs0occ⟩
    · simp only [List.mem_singleton] at hnew
      subst hnew
      refine ⟨{ s with is_occupied := true }, ?_, ?_, rfl⟩
      · rw [hA']
        exact List.mem_append_right _ (List.mem_cons_self _ _)
      · show s.spot_id = t.spot_id
        rw [hsid]
  · show (lot'.tickets.map fun e => e.2.spot_id).Nodup
    rw [htks2]
    simp only [List.map_append, List.map_cons, List.map_nil]
    rw [List.nodup_append]
    refine ⟨hinv.t_nodup, List.nodup_singleton _, ?_⟩
    intro sid hs1 hs2
    simp only [List.mem_singleton] at hs2
    subst hs2
    rcases List.mem_map.1 hs1 with ⟨e, he, heq⟩
    rcases hinv.t_spot e he with ⟨s0, hs0mem, hs0id, hs0occ⟩
    have hss : s0.spot_id = s.spot_id := by rw [hs0id, heq, hsid]
    rw [hA] at hs0mem
    rcases List.mem_append.1 hs0mem with h1 | h12
    · exact hmid (by
        rw [← hss]
        exact List.mem_append_left _ (List.mem_map_of_mem _ h1))
    · rcases List.mem_cons.1 h12 with rfl | h2
      · exact absurd hs0occ (by rw [hfree]; simp)
      · exact hmid (by
          rw [← hss]
          exact List.mem_append_right _ (List.mem_map_of_mem _ h2))
  · intro s' hs' hocc
    rw [hA'] at hs'
    rcases List.mem_append.1 hs' with h1 | h12
    · rcases hinv.occ_t s' (by rw [hA]; exact List.mem_append_left _ h1) hocc with ⟨e, he, heid⟩
      exact ⟨e, by rw [htks2]; exact List.mem_append_left _ he, heid⟩
    · rcases List.mem_cons.1 h12 with rfl | h2
      · refine ⟨(lot.nextTicketId, t), by rw [htks2]; simp, ?_⟩
        show t.spot_id = _
        rw [hsid]
      · rcases hinv.occ_t s'
          (by rw [hA]; exact List.mem_append_right _ (List.mem_cons_of_mem _ h2)) hocc
          with ⟨e, he, heid⟩
        exact ⟨e, by rw [htks2]; exact List.mem_append_left _ he, heid⟩

theorem release_map_spot_id (sid : String) (u : ParkingSpot) :
    (if u.spot_id = sid then u.release_spot else u).spot_id = u.spot_id := by
  by_cases hc : u.spot_id = sid <;> simp [hc, ParkingSpot.release_spot]

theorem LotInv_exit (lot : ParkingLot) (tid : Nat) (now : ℚ) (r : Receipt) (lot' : ParkingLot)
    (hinv : LotInv lot) (h : lot.exit_vehicle tid now = (.ok r, lot')) : LotInv lot' := by
  rcases hdp : (dictPop tid lot.tickets).1 with _ | t
  · have hfail := exit_vehicle_fail_spec lot tid now ((dictPop_fst_none_iff _ _).1 hdp)
    rw [h] at hfail
    simp only [Prod.mk.injEq] at hfail
    exact absurd hfail.1 (by simp)
  · have hok := exit_vehicle_ok_spec lot tid now t hdp
    rw [h] at hok
    simp only [Prod.mk.injEq] at hok
    have hlot : lot' = { lot with tickets := (dictPop tid lot.tickets).2, levels := releaseSpotId t.spot_id lot.levels } := hok.2
    rcases dictPop_some_spec tid lot.tickets t hdp with ⟨d1, d2, hsplit, hd1, hpop2⟩
    have hAS : allSpots lot' = (allSpots lot).map
        fun u => if u.spot_id = t.spot_id then u.release_spot else u := by
      rw [hlot]
      show (releaseSpotId t.spot_id lot.levels).flatMap Level.spots = _
      exact releaseSpotId_flatMap _ _ hinv.ids_nodup
    have htks2 : lot'.tickets = d1 ++ d2 := by
      rw [hlot]
      show (dictPop tid lot.tickets).2 = _
      exact hpop2
    have hnext2 : lot'.nextTicketId = lot.nextTicketId := by rw [hlot]
    have hsub : lot'.tickets.Sublist lot.tickets := by
      rw [htks2, hsplit]
      exact List.Sublist.append_left (List.sublist_cons_self _ _) d1
    have hids2 : allSpotIds lot' = allSpotIds lot := by
      unfold allSpotIds
      rw [hAS, List.map_map]
      apply List.map_congr_left
      intro u _
      exact release_map_spot_id t.spot_id u
    have hmid2 : t.spot_id ∉ (d1 ++ d2).map fun e => e.2.spot_id := by
      have hn := hinv.t_nodup
      unfold ticketSpotIds at hn
      rw [hsplit] at hn
      simp only [List.map_append, List.map_cons] at hn
      rw [List.map_append]
      exact (List.nodup_cons.1 (List.nodup_middle.1 hn)).1
    refine ⟨?_, ?_, ?_, ?_, ?_, ?_⟩
    · rw [hids2]
      exact hinv.ids_nodup
    · exact List.Nodup.sublist (hsub.map Prod.fst) hinv.keys_nodup
    · intro k hk
      rw [hnext2]
      exact hinv.keys_lt k ((hsub.map Prod.fst).mem hk)
    · intro e he
      have het : e.2.spot_id ≠ t.spot_id := by
        intro heq
        apply hmid2
        rw [← heq, ← htks2]
        exact List.mem_map_of_mem _ he
      rcases hinv.t_spot e (hsub.mem he) with ⟨s0, hs0, hid, hocc⟩
      refine ⟨if s0.spot_id = t.spot_id then s0.release_spot else s0, ?_, ?_, ?_⟩
      · rw [hAS]
        exact List.mem_map_of_mem _ hs0
      · rw [if_neg (by rw [hid]; exact het)]
        exact hid
      · rw [if_neg (by rw [hid]; exact het)]
        exact hocc
    · show (lot'.tickets.map fun e => e.2.spot_id).Nodup
      exact List.Nodup.sublist (hsub.map _) hinv.t_nodup
    · intro s' hs' hocc
      rw [hAS] at hs'
      rcases List.mem_map.1 hs' with ⟨s0, hs0, rfl⟩
      by_cases hc : s0.spot_id = t.spot_id
      · rw [if_pos hc] at hocc
        cases hocc
      · rw [if_neg hc] at hocc ⊢
        rcases hinv.occ_t s0 hs0 hocc with ⟨e, he, heid⟩
        refine ⟨e, ?_, heid⟩
        rw [htks2]
        rw [hsplit] at he
        rcases List.mem_append.1 he with h1 | h12
        · exact List.mem_append_left _ h1
        · rcases List.mem_cons.1 h12 with rfl | h2
          · exact absurd (heid.symm.trans rfl : s0.spot_id = t.spot_id) hc
          · exact List.mem_append_right _ h2

theorem LotInv_step (lot : ParkingLot) (op : Op) (hinv : LotInv lot) : LotInv (step lot op) := by
  cases op with
  | park v now =>
    show LotInv (lot.park_vehicle v now).2
    rcases hp : lot.park_vehicle v now with ⟨res, lot'⟩
    cases res with
    | ok t => exact LotInv_park lot v now t lot' hinv hp
    | error e =>
      rcases park_vehicle_error_spec lot v now e lot' hp with ⟨_, h2, _⟩
      rw [h2]
      exact hinv
  | exit tid now =>
    show LotInv (lot.exit_vehicle tid now).2
    rcases hp : lot.exit_vehicle tid now with ⟨res, lot'⟩
    cases res with
    | ok r => exact LotInv_exit lot tid now r lot' hinv hp
    | error e =>
      rcases exit_vehicle_error_spec lot tid now e lot' hp with ⟨_, h2, _⟩
      rw [h2]
      exact hinv

theorem LotInv_run (lot : ParkingLot) (ops : List Op) (hinv : LotInv lot) :
    LotInv (run lot ops) := by
  induction ops generalizing lot with
  | nil => exact hinv
  | cons op ops ih => exact ih _ (LotInv_step lot op hinv)

theorem occupiedSpotIds_nodup (lot : ParkingLot) (h : (allSpotIds lot).Nodup) :
    (occupiedSpotIds lot).Nodup := by
  have hsub : List.Sublist (occupiedSpotIds lot) (allSpotIds lot) :=
    (List.filter_sublist (allSpots lot)).map ParkingSpot.spot_id
  exact List.Nodup.sublist hsub h

/-- C1: in every state reachable from a freshly constructed facility, the
ticket registry and the occupied spots are in bijection through spot ids:
each outstanding ticket's bound spot id is the id of exactly one occupied
spot, and each occupied spot's id is the bound spot id of exactly one
registry entry.  (The configuration, being a Python dict, has distinct
keys.) -/
theorem park_exit_bijection (cfgOpt : Option (List (SpotType × Nat)))
    (hk : ((configOf cfgOpt).map Prod.fst).Nodup) (ops : List Op) :
    (∀ e ∈ (run (ParkingLot.init cfgOpt) ops).tickets,
      (occupiedSpotIds (run (ParkingLot.init cfgOpt) ops)).count e.2.spot_id = 1) ∧
    ∀ sid ∈ occupiedSpotIds (run (ParkingLot.init cfgOpt) ops),
      (ticketSpotIds (run (ParkingLot.init cfgOpt) ops)).count sid = 1 := by
  have hinv := LotInv_run _ ops (LotInv_init cfgOpt hk)
  constructor
  · intro e he
    rcases hinv.t_spot e he with ⟨s0, hs0, hid, hocc⟩
    have hmem : e.2.spot_id ∈ occupiedSpotIds (run (ParkingLot.init cfgOpt) ops) := by
      unfold occupiedSpotIds
      exact List.mem_map.2 ⟨s0, List.mem_filter.2 ⟨hs0, by simp [hocc]⟩, hid⟩
    exact List.count_eq_one_of_mem (occupiedSpotIds_nodup _ hinv.ids_nodup) hmem
  · intro sid hsid
    unfold occupiedSpotIds at hsid
    rcases List.mem_map.1 hsid with ⟨s0, hs0f, rfl⟩
    rcases List.mem_filter.1 hs0f with ⟨hs0, hocc⟩
    rcases hinv.occ_t s0 hs0 (by simpa using hocc) with ⟨e, he, heid⟩
    have hmem : s0.spot_id ∈ ticketSpotIds (run (ParkingLot.init cfgOpt) ops) :=
      List.mem_map.2 ⟨e, he, heid⟩
    exact List.count_eq_one_of_mem hinv.t_nodup hmem

/-! ### Capacity-boundary machinery -/

theorem freeCount_init_eq_classCount (cfgOpt : Option (List (SpotType × Nat))) (c : SpotType) :
    freeCount c (ParkingLot.init cfgOpt) = classCount c (ParkingLot.init cfgOpt) := by
  unfold freeCount classCount
  congr 1
  apply List.filter_congr
  intro s hs
  simp [freeMatch, init_spots_free cfgOpt s hs]

theorem unique_by_id (lot : ParkingLot) (h : (allSpotIds lot).Nodup) :
    ∀ s1 ∈ allSpots lot, ∀ s2 ∈ allSpots lot, s1.spot_id = s2.spot_id → s1 = s2 :=
  List.inj_on_of_nodup_map h

theorem park_ok_ids (lot : ParkingLot) (v : Vehicle) (now : ℚ) (t : Ticket) (lot' : ParkingLot)
    (h : lot.park_vehicle v now = (.ok t, lot')) : allSpotIds lot' = allSpotIds lot := by
  rcases park_vehicle_ok_spec lot v now t lot' h with
    ⟨_, _, _, _, _, l1, s, l2, hA, _, _, _, hA'⟩
  unfold allSpotIds
  rw [hA, hA']
  simp

theorem park_ok_freeCount (lot : ParkingLot) (v : Vehicle) (now : ℚ) (t : Ticket)
    (lot' : ParkingLot) (h : lot.park_vehicle v now = (.ok t, lot')) :
    freeCount v.required_spot_type lot = freeCount v.required_spot_type lot' + 1 := by
  rcases park_vehicle_ok_spec lot v now t lot' h with
    ⟨_, _, _, _, _, l1, s, l2, hA, _, hs, _, hA'⟩
  unfold freeCount
  rw [hA, hA']
  simp only [List.filter_append, List.filter_cons, hs, List.length_append]
  have hocc : freeMatch v.required_spot_type { s with is_occupied := true } = false := by
    simp [freeMatch]
  rw [hocc]
  simp only [if_true, Bool.false_eq_true, if_false, List.length_cons]
  omega

theorem park_ok_mono (lot : ParkingLot) (v : Vehicle) (now : ℚ) (t : Ticket) (lot' : ParkingLot)
    (h : lot.park_vehicle v now = (.ok t, lot')) (sid : String)
    (hocc : occupiedIn lot sid) : occupiedIn lot' sid := by
  rcases park_vehicle_ok_spec lot v now t lot' h with
    ⟨_, _, _, _, _, l1, s, l2, hA, _, hs, _, hA'⟩
  have hfree : s.is_occupied = false := ((freeMatch_iff _ s).1 hs).2
  rcases hocc with ⟨s0, hs0, hid, hso⟩
  rw [hA] at hs0
  rcases List.mem_append.1 hs0 with h1 | h12
  · exact ⟨s0, by rw [hA']; exact List.mem_append_left _ h1, hid, hso⟩
  · rcases List.mem_cons.1 h12 with rfl | h2
    · exact absurd hso (by rw [hfree]; simp)
    · exact ⟨s0, by
        rw [hA']
        exact List.mem_append_right _ (List.mem_cons_of_mem _ h2), hid, hso⟩

theorem park_ok_claims (lot : ParkingLot) (v : Vehicle) (now : ℚ) (t : Ticket)
    (lot' : ParkingLot) (hids : (allSpotIds lot).Nodup)
    (h : lot.park_vehicle v now = (.ok t, lot')) :
    ¬ occupiedIn lot t.spot_id ∧ occupiedIn lot' t.spot_id := by
  rcases park_vehicle_ok_spec lot v now t lot' h with
    ⟨_, _, _, _, _, l1, s, l2, hA, _, hs, hsid, hA'⟩
  have hfree : s.is_occupied = false := ((freeMatch_iff _ s).1 hs).2
  have hsmem : s ∈ allSpots lot := by
    rw [hA]
    simp
  constructor
  · rintro ⟨s0, hs0, hid, hso⟩
    have : s0 = s := unique_by_id lot hids s0 hs0 s hsmem (by rw [hid, hsid])
    subst this
    rw [hfree] at hso
    cases hso
  · refine ⟨{ s with is_occupied := true }, ?_, ?_, rfl⟩
    · rw [hA']
      exact List.mem_append_right _ (List.mem_cons_self _ _)
    · show s.spot_id = t.spot_id
      rw [hsid]

theorem freeCount_pos_park_ok (lot : ParkingLot) (v : Vehicle) (now : ℚ)
    (hpos : 0 < freeCount v.required_spot_type lot) :
    ∃ t lot', lot.park_vehicle v now = (.ok t, lot') := by
  apply (park_vehicle_ok_iff lot v now).2
  unfold freeCount at hpos
  rcases hne : (allSpots lot).filter (freeMatch v.required_spot_type) with _ | ⟨s, rest⟩
  · rw [hne] at hpos
    simp at hpos
  · have hs : s ∈ (allSpots lot).filter (freeMatch v.required_spot_type) := by
      rw [hne]
      simp
    rcases List.mem_filter.1 hs with ⟨hmem, hfm⟩
    exact ⟨s, hmem, hfm⟩

theorem freeCount_zero_park_fail (lot : ParkingLot) (v : Vehicle) (now : ℚ)
    (hzero : freeCount v.required_spot_type lot = 0) :
    lot.park_vehicle v now = (.error .Capacity, lot) := by
  apply park_vehicle_fail_spec
  rw [scanAssign_fst_none_iff]
  intro s hmem
  by_contra hne
  have hfm : freeMatch v.required_spot_type s = true := by
    cases hfm2 : freeMatch v.required_spot_type s
    · exact absurd hfm2 hne
    · rfl
  have : s ∈ (allSpots lot).filter (freeMatch v.required_spot_type) :=
    List.mem_filter.2 ⟨hmem, hfm⟩
  unfold freeCount at hzero
  rw [List.length_eq_zero.1 hzero] at this
  cases this

theorem parkRun_length (now : ℚ) (vs : List Vehicle) :
    ∀ lot : ParkingLot, (parkRun now lot vs).1.length = vs.length := by
  induction vs with
  | nil => intro lot; rfl
  | cons v vs ih =>
    intro lot
    show ((lot.park_vehicle v now).1 :: (parkRun now (lot.park_vehicle v now).2 vs).1).length = _
    simp [ih]

theorem parkRun_append (now : ℚ) (xs ys : List Vehicle) :
    ∀ lot : ParkingLot,
      parkRun now lot (xs ++ ys) =
        ((parkRun now lot xs).1 ++ (parkRun now (parkRun now lot xs).2 ys).1,
         (parkRun now (parkRun now lot xs).2 ys).2) := by
  induction xs with
  | nil => intro lot; rfl
  | cons x xs ih =>
    intro lot
    show ((lot.park_vehicle x now).1 :: (parkRun now (lot.park_vehicle x now).2 (xs ++ ys)).1,
      (parkRun now (lot.park_vehicle x now).2 (xs ++ ys)).2) = _
    rw [ih]
    rfl

/-- Core induction for the capacity boundary: as long as there is room, a run
of same-class parks succeeds at every step, claims pairwise distinct free
spots, keeps spot ids intact, and decrements the free count one per park. -/
theorem parkRun_spec (now : ℚ) (c : SpotType) :
    ∀ (vs : List Vehicle) (lot : ParkingLot),
      (∀ v ∈ vs, v.required_spot_type = c) →
      (allSpotIds lot).Nodup →
      vs.length ≤ freeCount c lot →
      (∀ res ∈ (parkRun now lot vs).1, ∃ t, res = .ok t) ∧
      freeCount c (parkRun now lot vs).2 = freeCount c lot - vs.length ∧
      allSpotIds (parkRun now lot vs).2 = allSpotIds lot ∧
      (∀ sid, occupiedIn lot sid → occupiedIn (parkRun now lot vs).2 sid) ∧
      (∀ t ∈ okTickets (parkRun now lot vs).1,
        occupiedIn (parkRun now lot vs).2 t.spot_id ∧ ¬ occupiedIn lot t.spot_id) ∧
      ((okTickets (parkRun now lot vs).1).map Ticket.spot_id).Nodup := by
  intro vs
  induction vs with
  | nil =>
    intro lot _ _ _
    refine ⟨?_, by simp [parkRun], rfl, fun sid h => h, ?_, List.nodup_nil⟩
    · intro res h
      cases h
    · intro t h
      cases h
  | cons v vs ih =>
    intro lot hcls hids hlen
    have hcv : v.required_spot_type = c := hcls v (by simp)
    have hpos : 0 < freeCount v.required_spot_type lot := by
      rw [hcv]
      have := hlen
      simp only [List.length_cons] at this
      omega
    rcases freeCount_pos_park_ok lot v now hpos with ⟨t1, lot1, hp⟩
    have hrun : parkRun now lot (v :: vs) =
        ((lot.park_vehicle v now).1 :: (parkRun now (lot.park_vehicle v now).2 vs).1,
         (parkRun now (lot.park_vehicle v now).2 vs).2) := rfl
    rw [hrun, hp]
    have hfc : freeCount c lot = freeCount c lot1 + 1 := by
      rw [← hcv]
      exact park_ok_freeCount lot v now t1 lot1 hp
    have hids1 : allSpotIds lot1 = allSpotIds lot := park_ok_ids lot v now t1 lot1 hp
    have hlen1 : vs.length ≤ freeCount c lot1 := by
      have := hlen
      simp only [List.length_cons] at this
      omega
    rcases ih lot1 (fun u hu => hcls u (by simp [hu])) (by rw [hids1]; exact hids) hlen1 with
      ⟨iha, ihb, ihc, ihd, ihe, ihf⟩
    rcases park_ok_claims lot v now t1 lot1 hids hp with ⟨hnotocc, hocc1⟩
    refine ⟨?_, ?_, ?_, ?_, ?_, ?_⟩
    · intro res hres
      rcases List.mem_cons.1 hres with rfl | h2
      · exact ⟨t1, rfl⟩
      · exact iha res h2
    · show freeCount c (parkRun now lot1 vs).2 = _
      rw [ihb]
      simp only [List.length_cons]
      omega
    · show allSpotIds (parkRun now lot1 vs).2 = _
      rw [ihc, hids1]
    · intro sid hsid
      exact ihd sid (park_ok_mono lot v now t1 lot1 hp sid hsid)
    · intro t ht
      rcases List.mem_cons.1 (show t ∈ t1 :: okTickets (parkRun now lot1 vs).1 from ht)
        with rfl | h2
      · exact ⟨ihd t.spot_id hocc1, hnotocc⟩
      · rcases ihe t h2 with ⟨hoF, hno1⟩
        refine ⟨hoF, fun hc0 => hno1 (park_ok_mono lot v now t1 lot1 hp _ hc0)⟩
    · show (Ticket.spot_id t1 :: (okTickets (parkRun now lot1 vs).1).map Ticket.spot_id).Nodup
      rw [List.nodup_cons]
      refine ⟨?_, ihf⟩
      intro hmem
      rcases List.mem_map.1 hmem with ⟨t2, ht2, heq⟩
      rcases ihe t2 ht2 with ⟨_, hno1⟩
      rw [heq] at hno1
      exact hno1 hocc1

theorem okTickets_append (xs ys : List (Except LotError Ticket)) :
    okTickets (xs ++ ys) = okTickets xs ++ okTickets ys := by
  induction xs with
  | nil => rfl
  | cons r rest ih =>
    cases r with
    | ok t =>
      show t :: okTickets (rest ++ ys) = t :: (okTickets rest ++ okTickets ys)
      rw [ih]
    | error e =>
      show okTickets (rest ++ ys) = okTickets rest ++ okTickets ys
      rw [ih]

/-- C3: with exactly `K` spots of class `c` in the fresh facility, `K + 1`
same-class parks succeed `K` times with pairwise distinct spot ids, the last
call fails with `Capacity`, and the failing call leaves the facility exactly
as it was after the `K` successful parks. -/
theorem capacity_boundary (cfgOpt : Option (List (SpotType × Nat))) (c : SpotType)
    (K : Nat) (vs : List Vehicle) (now : ℚ)
    (hk : ((configOf cfgOpt).map Prod.fst).Nodup)
    (hc : ∀ v ∈ vs, v.required_spot_type = c)
    (hK : classCount c (ParkingLot.init cfgOpt) = K)
    (hlen : vs.length = K + 1) :
    (∀ i, i < K →
      ∃ t, ((parkRun now (ParkingLot.init cfgOpt) vs).1)[i]? = some (.ok t)) ∧
    ((okTickets (parkRun now (ParkingLot.init cfgOpt) vs).1).map Ticket.spot_id).Nodup ∧
    (parkRun now (ParkingLot.init cfgOpt) vs).1.getLast? = some (.error .Capacity) ∧
    (parkRun now (ParkingLot.init cfgOpt) vs).2 =
      (parkRun now (ParkingLot.init cfgOpt) (vs.take K)).2 := by
  have hids0 : (allSpotIds (ParkingLot.init cfgOpt)).Nodup := allSpotIds_init_nodup cfgOpt hk
  have hfree0 : freeCount c (ParkingLot.init cfgOpt) = K := by
    rw [freeCount_init_eq_classCount]
    exact hK
  have hsplit : vs = vs.take K ++ vs.drop K := (List.take_append_drop K vs).symm
  have hdlen : (vs.drop K).length = 1 := by
    rw [List.length_drop]
    omega
  rcases List.length_eq_one.1 hdlen with ⟨vl, hvl⟩
  have htlen : (vs.take K).length = K := by
    rw [List.length_take]
    omega
  have hc1 : ∀ v ∈ vs.take K, v.required_spot_type = c :=
    fun v hv => hc v (List.take_subset _ _ hv)
  rcases parkRun_spec now c (vs.take K) (ParkingLot.init cfgOpt) hc1 hids0
    (by rw [htlen, hfree0]) with ⟨ha, hb, _, _, _, hf⟩
  have hfc2 : freeCount c (parkRun now (ParkingLot.init cfgOpt) (vs.take K)).2 = 0 := by
    rw [hb, htlen, hfree0]
    omega
  have hvlc : vl.required_spot_type = c := by
    apply hc
    rw [hsplit]
    apply List.mem_append_right
    rw [hvl]
    simp
  have hfail := freeCount_zero_park_fail (parkRun now (ParkingLot.init cfgOpt) (vs.take K)).2
    vl now (by rw [hvlc]; exact hfc2)
  have hone : parkRun now (parkRun now (ParkingLot.init cfgOpt) (vs.take K)).2 [vl] =
      ([.error .Capacity], (parkRun now (ParkingLot.init cfgOpt) (vs.take K)).2) := by
    show (((parkRun now (ParkingLot.init cfgOpt) (vs.take K)).2.park_vehicle vl now).1 ::
        (parkRun now ((parkRun now (ParkingLot.init cfgOpt) (vs.take K)).2.park_vehicle
          vl now).2 []).1,
      (parkRun now ((parkRun now (ParkingLot.init cfgOpt) (vs.take K)).2.park_vehicle
        vl now).2 []).2) = _
    rw [hfail]
    rfl
  have hfull : parkRun now (ParkingLot.init cfgOpt) vs =
      ((parkRun now (ParkingLot.init cfgOpt) (vs.take K)).1 ++ [.error .Capacity],
       (parkRun now (ParkingLot.init cfgOpt) (vs.take K)).2) := by
    conv_lhs => rw [hsplit, hvl]
    rw [parkRun_append, hone]
  rw [hfull]
  have hlen1 : (parkRun now (ParkingLot.init cfgOpt) (vs.take K)).1.length = K := by
    rw [parkRun_length, htlen]
  refine ⟨?_, ?_, ?_, rfl⟩
  · intro i hi
    have hi1 : i < (parkRun now (ParkingLot.init cfgOpt) (vs.take K)).1.length := by
      rw [hlen1]
      exact hi
    rw [List.getElem?_append_left hi1, List.getElem?_eq_getElem hi1]
    rcases ha _ (List.getElem_mem hi1) with ⟨t, ht⟩
    exact ⟨t, by rw [ht]⟩
  · rw [okTickets_append]
    show ((okTickets (parkRun now (ParkingLot.init cfgOpt) (vs.take K)).1 ++
      []).map Ticket.spot_id).Nodup
    rw [List.append_nil]
    exact hf
  · exact List.getLast?_concat _

/-- C4: exit succeeds at most once per ticket id — after a successful exit a
second exit with the same id fails with `InvalidTicket`, an id absent from
the registry fails likewise, and in both failure cases the registry and all
occupancy are left exactly as they were. -/
theorem exit_at_most_once (lot : ParkingLot) (tid : Nat) (now1 now2 : ℚ)
    (hkeys : (ticketKeys lot).Nodup) :
    (∀ r lot1, lot.exit_vehicle tid now1 = (.ok r, lot1) →
      lot1.exit_vehicle tid now2 = (.error .InvalidTicket, lot1)) ∧
    (tid ∉ ticketKeys lot → lot.exit_vehicle tid now1 = (.error .InvalidTicket, lot)) := by
  constructor
  · intro r lot1 h
    rcases hdp : (dictPop tid lot.tickets).1 with _ | t
    · have hfail := exit_vehicle_fail_spec lot tid now1 ((dictPop_fst_none_iff _ _).1 hdp)
      rw [h] at hfail
      simp only [Prod.mk.injEq] at hfail
      exact absurd hfail.1 (by simp)
    · have hok := exit_vehicle_ok_spec lot tid now1 t hdp
      rw [h] at hok
      simp only [Prod.mk.injEq] at hok
      rcases dictPop_some_spec tid lot.tickets t hdp with ⟨d1, d2, hsplit, _, hpop2⟩
      have hnm : tid ∉ ticketKeys lot1 := by
        rw [hok.2]
        show tid ∉ ((dictPop tid lot.tickets).2).map Prod.fst
        rw [hpop2]
        have hn := hkeys
        unfold ticketKeys at hn
        rw [hsplit] at hn
        simp only [List.map_append, List.map_cons] at hn
        rw [List.map_append]
        exact (List.nodup_cons.1 (List.nodup_middle.1 hn)).1
      exact exit_vehicle_fail_spec lot1 tid now2 hnm
  · intro hn
    exact exit_vehicle_fail_spec lot tid now1 hn

theorem find?_of_split {α : Type} (p : α → Bool) (l1 l2 : List α) (s : α)
    (h1 : ∀ u ∈ l1, p u = false) (hs : p s = true) :
    (l1 ++ s :: l2).find? p = some s := by
  induction l1 with
  | nil =>
    show List.find? p (s :: l2) = some s
    rw [List.find?_cons, hs]
  | cons u rest ih =>
    show List.find? p (u :: (rest ++ s :: l2)) = some s
    rw [List.find?_cons, h1 u (by simp)]
    exact ih fun w hw => h1 w (by simp [hw])

/-- C5: every successful park claims exactly the first free spot of the
vehicle's required class in scan order (levels in construction order, spots
in creation order), and that spot's class matches the vehicle. -/
theorem park_first_free_matching (lot : ParkingLot) (v : Vehicle) (now : ℚ) (t : Ticket)
    (lot' : ParkingLot) (h : lot.park_vehicle v now = (.ok t, lot')) :
    ∃ s, (allSpots lot).find? (freeMatch v.required_spot_type) = some s ∧
      t.spot_id = s.spot_id ∧ s.spot_type = v.required_spot_type := by
  rcases park_vehicle_ok_spec lot v now t lot' h with
    ⟨_, _, _, _, _, l1, s, l2, hA, hl1, hs, hsid, _⟩
  refine ⟨s, ?_, hsid, ((freeMatch_iff _ s).1 hs).1⟩
  rw [hA]
  exact find?_of_split _ l1 l2 s hl1 hs

/-- C10: constructing the `ParkingLot` singleton again returns the existing
instance unchanged — whatever its current levels, spots and registry — and
the configuration passed to the second construction is silently ignored. -/
theorem singleton_construction (lot : ParkingLot)
    (cfg1 cfg2 : Option (List (SpotType × Nat))) :
    ParkingLot.new (some lot) cfg2 = lot ∧
    ParkingLot.new (some (ParkingLot.new none cfg1)) cfg2 = ParkingLot.new none cfg1 :=
  ⟨rfl, rfl⟩

/-- C6: park followed by exit with the returned ticket id succeeds, leaves the
ticket's spot unoccupied, and a subsequent same-class park can succeed; on the
default facility the exact same spot id is handed out again. -/
theorem park_exit_roundtrip :
    (∀ (lot : ParkingLot) (v : Vehicle) (t0 t1 : ℚ) (tk : Ticket) (lot1 : ParkingLot),
      (allSpotIds lot).Nodup →
      (∀ k ∈ ticketKeys lot, k < lot.nextTicketId) →
      lot.park_vehicle v t0 = (.ok tk, lot1) →
      ∃ rec lot2, lot1.exit_vehicle tk.ticket_id t1 = (.ok rec, lot2) ∧
        (∀ s ∈ allSpots lot2, s.spot_id = tk.spot_id → s.is_occupied = false) ∧
        ∀ (v2 : Vehicle) (t2 : ℚ), v2.required_spot_type = v.required_spot_type →
          ∃ tk2 lot3, lot2.park_vehicle v2 t2 = (.ok tk2, lot3)) ∧
    ((((ParkingLot.init none).park_vehicle (Vehicle.Car "A") 0).2.exit_vehicle 0 1).2.park_vehicle
        (Vehicle.Car "B") 2).1 =
      .ok { ticket_id := 1, vehicle_id := "B", spot_id := "L1-C1", entry_time := 2 } := by
  constructor
  · intro lot v t0 t1 tk lot1 hids hbound hpark
    rcases park_vehicle_ok_spec lot v t0 tk lot1 hpark with
      ⟨htid, _, _, htks, _, l1, s, l2, hA, _, hs, hsid, hA'⟩
    have hfresh : lot.nextTicketId ∉ ticketKeys lot := by
      intro hm
      exact absurd rfl (Nat.ne_of_lt (hbound _ hm))
    have hpop : dictPop tk.ticket_id lot1.tickets = (some tk, lot.tickets) := by
      rw [htks, htid, dictInsert_fresh _ _ _ hfresh]
      exact dictPop_append_fresh _ _ _ hfresh
    have hids1 : (allSpotIds lot1).Nodup := by
      rw [park_ok_ids lot v t0 tk lot1 hpark]
      exact hids
    have hexit := exit_vehicle_ok_spec lot1 tk.ticket_id t1 tk (by rw [hpop])
    refine ⟨_, _, hexit, ?_, ?_⟩
    · intro s' hs' hsid'
      have hAS2 : allSpots { lot1 with tickets := (dictPop tk.ticket_id lot1.tickets).2, levels := releaseSpotId tk.spot_id lot1.levels } = (allSpots lot1).map fun u => if u.spot_id = tk.spot_id then u.release_spot else u := by
        show (releaseSpotId tk.spot_id lot1.levels).flatMap Level.spots = _
        exact releaseSpotId_flatMap _ _ hids1
      rw [hAS2] at hs'
      rcases List.mem_map.1 hs' with ⟨s0, _, rfl⟩
      by_cases hcs : s0.spot_id = tk.spot_id
      · rw [if_pos hcs]
        rfl
      · rw [if_neg hcs] at hsid' ⊢
        exact absurd hsid' hcs
    · intro v2 t2 hv2
      apply (park_vehicle_ok_iff _ v2 t2).2
      have hoccmem : ({ s with is_occupied := true } : ParkingSpot) ∈ allSpots lot1 := by
        rw [hA']
        simp
      have hAS2 : allSpots { lot1 with tickets := (dictPop tk.ticket_id lot1.tickets).2, levels := releaseSpotId tk.spot_id lot1.levels } = (allSpots lot1).map fun u => if u.spot_id = tk.spot_id then u.release_spot else u := by
        show (releaseSpotId tk.spot_id lot1.levels).flatMap Level.spots = _
        exact releaseSpotId_flatMap _ _ hids1
      have hrelmem : ({ s with is_occupied := true } : ParkingSpot).release_spot ∈
          allSpots { lot1 with tickets := (dictPop tk.ticket_id lot1.tickets).2, levels := releaseSpotId tk.spot_id lot1.levels } := by
        rw [hAS2]
        refine List.mem_map.2 ⟨{ s with is_occupied := true }, hoccmem, ?_⟩
        rw [if_pos (show s.spot_id = tk.spot_id from hsid.symm)]
      refine ⟨_, hrelmem, ?_⟩
      rw [freeMatch_iff]
      refine ⟨?_, rfl⟩
      show s.spot_type = v2.required_spot_type
      rw [hv2]
      exact ((freeMatch_iff _ s).1 hs).1
  · decide

/-- C2: exiting an outstanding ticket charges `max(1, elapsed hours)` times
the hourly rate of the class of the bound spot (Motorcycle 1.0, Car 2.0,
Bus 5.0, unknown class 0); a Car exited after 0.5 hours pays 2.0 and after
3 hours pays 6.0. -/
theorem exit_fee_spec :
    (∀ (lot : ParkingLot) (tid : Nat) (now : ℚ) (t : Ticket),
      (dictPop tid lot.tickets).1 = some t →
      (lot.exit_vehicle tid now).1 = .ok { ticket_id := t.ticket_id, exit_time := now,
                                           amount_due := max 1 (now - t.entry_time) *
                                             rateTable (lot.get_spot_type t.spot_id) }) ∧
    rateTable (some .MOTORCYCLE) = 1 ∧ rateTable (some .CAR) = 2 ∧
    rateTable (some .BUS) = 5 ∧ rateTable none = 0 ∧
    ((((ParkingLot.init none).park_vehicle (Vehicle.Car "ABC123") 0).2.exit_vehicle
        0 (1 / 2)).1 =
      .ok { ticket_id := 0, exit_time := 1 / 2, amount_due := 2 }) ∧
    ((((ParkingLot.init none).park_vehicle (Vehicle.Car "ABC123") 0).2.exit_vehicle 0 3).1 =
      .ok { ticket_id := 0, exit_time := 3, amount_due := 6 }) := by
  have hgen : ∀ (lot : ParkingLot) (tid : Nat) (now : ℚ) (t : Ticket),
      (dictPop tid lot.tickets).1 = some t →
      (lot.exit_vehicle tid now).1 = .ok { ticket_id := t.ticket_id, exit_time := now,
                                           amount_due := max 1 (now - t.entry_time) *
                                             rateTable (lot.get_spot_type t.spot_id) } := by
    intro lot tid now t h
    rw [exit_vehicle_ok_spec lot tid now t h]
  have hpop : (dictPop 0 (((ParkingLot.init none).park_vehicle (Vehicle.Car "ABC123")
      0).2).tickets).1 = some ⟨0, "ABC123", "L1-C1", 0⟩ := by decide
  have hrate : (((ParkingLot.init none).park_vehicle (Vehicle.Car "ABC123")
      0).2).get_spot_type "L1-C1" = some SpotType.CAR := by decide
  refine ⟨hgen, rfl, rfl, rfl, rfl, ?_, ?_⟩
  · rw [hgen _ 0 (1 / 2) _ hpop]
    dsimp only
    rw [hrate]
    simp only [Except.ok.injEq, Receipt.mk.injEq]
    refine ⟨trivial, trivial, ?_⟩
    show max 1 ((1 : ℚ) / 2 - 0) * rateTable (some SpotType.CAR) = 2
    rw [show ((1 : ℚ) / 2 - 0) = 1 / 2 by ring,
      max_eq_left (by norm_num : (1 : ℚ) / 2 ≤ 1)]
    show (1 : ℚ) * 2 = 2
    norm_num
  · rw [hgen _ 0 3 _ hpop]
    dsimp only
    rw [hrate]
    simp only [Except.ok.injEq, Receipt.mk.injEq]
    refine ⟨trivial, trivial, ?_⟩
    show max 1 ((3 : ℚ) - 0) * rateTable (some SpotType.CAR) = 6
    rw [show ((3 : ℚ) - 0) = 3 by ring,
      max_eq_right (by norm_num : (1 : ℚ) ≤ 3)]
    show (3 : ℚ) * 2 = 6
    norm_num

/-- C8: vehicle construction succeeds precisely for tags whose lowercasing is
"car", "bus" or "motorcycle", yielding the matching variant that carries the
plate and requires the matching spot class; any other tag (e.g. "boat")
fails with the unknown-vehicle-type error. -/
theorem vehicle_factory_spec (vtype plate : String) :
    (VehicleFactory.create vtype plate = .ok (Vehicle.Car plate) ↔ strLower vtype = "car") ∧
    (VehicleFactory.create vtype plate = .ok (Vehicle.Bus plate) ↔ strLower vtype = "bus") ∧
    (VehicleFactory.create vtype plate = .ok (Vehicle.Motorcycle plate) ↔
      strLower vtype = "motorcycle") ∧
    (strLower vtype ∉ (["car", "bus", "motorcycle"] : List String) →
      VehicleFactory.create vtype plate = .error ("Unknown vehicle type: " ++ vtype)) ∧
    (∀ v, VehicleFactory.create vtype plate = .ok v → v.vehicle_id = plate) ∧
    (Vehicle.Car plate).required_spot_type = SpotType.CAR ∧
    (Vehicle.Bus plate).required_spot_type = SpotType.BUS ∧
    (Vehicle.Motorcycle plate).required_spot_type = SpotType.MOTORCYCLE ∧
    VehicleFactory.create "boat" plate = .error ("Unknown vehicle type: boat") := by
  have hboat : ∀ goal : Prop, goal →
      ((if strLower "boat" = "car" then (Except.ok (Vehicle.Car plate) : Except String Vehicle)
        else if strLower "boat" = "bus" then Except.ok (Vehicle.Bus plate)
        else if strLower "boat" = "motorcycle" then Except.ok (Vehicle.Motorcycle plate)
        else Except.error "Unknown vehicle type: boat") =
          Except.error "Unknown vehicle type: boat") := by
    intro goal _
    rw [if_neg (by decide : ¬ strLower "boat" = "car"),
      if_neg (by decide : ¬ strLower "boat" = "bus"),
      if_neg (by decide : ¬ strLower "boat" = "motorcycle")]
  by_cases h1 : strLower vtype = "car"
  · simp only [VehicleFactory.create, h1]
    simp [Vehicle.vehicle_id, Vehicle.required_spot_type]
    exact hboat True trivial
  · by_cases h2 : strLower vtype = "bus"
    · simp only [VehicleFactory.create, h1, h2]
      simp [Vehicle.vehicle_id, Vehicle.required_spot_type, h1, h2]
      exact hboat True trivial
    · by_cases h3 : strLower vtype = "motorcycle"
      · simp only [VehicleFactory.create, h1, h2, h3]
        simp [Vehicle.vehicle_id, Vehicle.required_spot_type, h1, h2, h3]
        exact hboat True trivial
      · simp only [VehicleFactory.create, h1, h2, h3]
        simp [Vehicle.vehicle_id, Vehicle.required_spot_type, h1, h2, h3]
        exact hboat True trivial

theorem mkSpots_filter_same (lid : Nat) (st : SpotType) (cnt : Nat) :
    (mkSpots lid st cnt).filter (fun s => s.spot_type = st) = mkSpots lid st cnt := by
  apply List.filter_eq_self.2
  intro s hs
  rcases List.mem_map.1 hs with ⟨i, _, rfl⟩
  simp

theorem mkSpots_filter_other (lid : Nat) (st st' : SpotType) (cnt : Nat) (h : st' ≠ st) :
    (mkSpots lid st' cnt).filter (fun s => s.spot_type = st) = [] := by
  apply List.filter_eq_nil_iff.2
  intro s hs
  rcases List.mem_map.1 hs with ⟨i, _, rfl⟩
  simpa using h

theorem mkSpots_length (lid : Nat) (st : SpotType) (cnt : Nat) :
    (mkSpots lid st cnt).length = cnt := by
  simp [mkSpots]

theorem levelClassCount_cons (c : SpotType) (lid : Nat) (p : SpotType × Nat)
    (rest : List (SpotType × Nat)) :
    levelClassCount c (Level.init lid (p :: rest)) =
      ((mkSpots lid p.1 p.2).filter (fun s => s.spot_type = c)).length +
        levelClassCount c (Level.init lid rest) := by
  unfold levelClassCount Level.init
  show ((List.flatMap (p :: rest) fun q => mkSpots lid q.1 q.2).filter
    (fun s => s.spot_type = c)).length = _
  rw [List.flatMap_cons, List.filter_append, List.length_append]

theorem levelClassCount_init (lid : Nat) (st : SpotType) :
    ∀ (cfg : List (SpotType × Nat)) (cnt : Nat), (cfg.map Prod.fst).Nodup →
      (st, cnt) ∈ cfg → levelClassCount st (Level.init lid cfg) = cnt := by
  intro cfg
  induction cfg with
  | nil =>
    intro cnt _ hmem
    cases hmem
  | cons p rest ih =>
    intro cnt hk hmem
    simp only [List.map_cons, List.nodup_cons] at hk
    rw [levelClassCount_cons]
    rcases List.mem_cons.1 hmem with rfl | h2
    · rw [mkSpots_filter_same, mkSpots_length]
      have hz : levelClassCount st (Level.init lid rest) = 0 := by
        unfold levelClassCount Level.init
        rw [List.length_eq_zero]
        apply List.filter_eq_nil_iff.2
        intro s hs
        rcases List.mem_flatMap.1 hs with ⟨q, hq, hsq⟩
        rcases List.mem_map.1 hsq with ⟨i, _, rfl⟩
        simp only [decide_eq_true_eq]
        intro heq
        have hmm : q.1 ∈ rest.map Prod.fst := List.mem_map_of_mem Prod.fst hq
        rw [heq] at hmm
        exact hk.1 hmm
      rw [hz]
      simp
    · have hne : p.1 ≠ st := by
        intro heq
        exact hk.1 (by rw [heq]; exact List.mem_map_of_mem Prod.fst h2)
      rw [mkSpots_filter_other lid st p.1 p.2 hne, ih cnt hk.2 h2]
      simp

/-- C7: the facility is built from a class-to-count configuration; it always
creates exactly 2 levels, numbered 1 and 2, each populated from the same
configuration (the default being Car=10, Bus=2, Motorcycle=5 per level when
no overriding configuration is supplied), with an empty ticket registry. -/
theorem construction_config (cfgOpt : Option (List (SpotType × Nat))) :
    (ParkingLot.init cfgOpt).levels =
      [Level.init 1 (configOf cfgOpt), Level.init 2 (configOf cfgOpt)] ∧
    (ParkingLot.init cfgOpt).tickets = [] ∧
    configOf none = default_config ∧
    (∀ cfg : List (SpotType × Nat), cfg ≠ [] → configOf (some cfg) = cfg) ∧
    (∀ l ∈ (ParkingLot.init none).levels,
      levelClassCount SpotType.CAR l = 10 ∧ levelClassCount SpotType.BUS l = 2 ∧
        levelClassCount SpotType.MOTORCYCLE l = 5) ∧
    (∀ (cfg : List (SpotType × Nat)) (st : SpotType) (cnt : Nat),
      (cfg.map Prod.fst).Nodup → (st, cnt) ∈ cfg →
      ∀ l ∈ (ParkingLot.init (some cfg)).levels, levelClassCount st l = cnt) := by
  refine ⟨?_, rfl, rfl, ?_, ?_, ?_⟩
  · show (List.range 2).map (fun i => Level.init (i + 1) (configOf cfgOpt)) = _
    rfl
  · intro cfg hne
    simp [configOf, hne]
  · intro l hl
    simp only [ParkingLot.init, List.mem_map] at hl
    rcases hl with ⟨i, _, rfl⟩
    refine ⟨?_, ?_, ?_⟩
    · exact levelClassCount_init (i + 1) SpotType.CAR (configOf none) 10 (by decide) (by decide)
    · exact levelClassCount_init (i + 1) SpotType.BUS (configOf none) 2 (by decide) (by decide)
    · exact levelClassCount_init (i + 1) SpotType.MOTORCYCLE (configOf none) 5 (by decide)
        (by decide)
  · intro cfg st cnt hk hmem l hl
    simp only [ParkingLot.init, List.mem_map] at hl
    rcases hl with ⟨i, _, rfl⟩
    have hcfg : configOf (some cfg) = cfg := by
      have hne : cfg ≠ [] := by
        intro he
        rw [he] at hmem
        cases hmem
      simp [configOf, hne]
    rw [hcfg]
    exact levelClassCount_init (i + 1) st cfg cnt hk hmem

/-- C9: spot ids are deterministic strings made of the level number, the
single-letter class code and a 1-based per-class index — the i-th created
spot of a class chunk has id `"L" ++ level ++ "-" ++ code ++ (i+1)` — level
1's second car spot is "L1-C2", and the ids are pairwise distinct across the
whole constructed facility. -/
theorem spot_id_scheme :
    (∀ (lid : Nat) (st : SpotType) (count i : Nat), i < count →
      ((mkSpots lid st count).map ParkingSpot.spot_id)[i]? =
        some ("L" ++ Nat.repr lid ++ "-" ++ st.name.take 1 ++ Nat.repr (i + 1))) ∧
    (∃ l, ((ParkingLot.init none).levels)[0]? = some l ∧ l.level_id = 1 ∧
      (l.spots.map ParkingSpot.spot_id)[1]? = some "L1-C2") ∧
    ∀ cfgOpt : Option (List (SpotType × Nat)), ((configOf cfgOpt).map Prod.fst).Nodup →
      (allSpotIds (ParkingLot.init cfgOpt)).Nodup := by
  refine ⟨?_, ⟨Level.init 1 default_config, by decide, by decide, by decide⟩,
    allSpotIds_init_nodup⟩
  intro lid st count i hi
  unfold mkSpots sidStr
  rw [List.map_map, List.getElem?_map, List.getElem?_range hi]
  rfl

/-! ### Concrete witnesses -/

theorem park_exit_bijection_witness :
    ((configOf none).map Prod.fst).Nodup ∧
    ((∀ e ∈ (run (ParkingLot.init none) [Op.park (Vehicle.Car "A") 0]).tickets,
      (occupiedSpotIds (run (ParkingLot.init none) [Op.park (Vehicle.Car "A") 0])).count
        e.2.spot_id = 1) ∧
    ∀ sid ∈ occupiedSpotIds (run (ParkingLot.init none) [Op.park (Vehicle.Car "A") 0]),
      (ticketSpotIds (run (ParkingLot.init none) [Op.park (Vehicle.Car "A") 0])).count
        sid = 1) :=
  ⟨by decide, park_exit_bijection none (by decide) [Op.park (Vehicle.Car "A") 0]⟩

theorem exit_fee_witness :
    (dictPop 0 (((ParkingLot.init none).park_vehicle (Vehicle.Car "W") 0).2).tickets).1 =
      some ⟨0, "W", "L1-C1", 0⟩ ∧
    ((((ParkingLot.init none).park_vehicle (Vehicle.Car "W") 0).2.exit_vehicle 0 5).1 =
      .ok { ticket_id := (⟨0, "W", "L1-C1", (0 : ℚ)⟩ : Ticket).ticket_id, exit_time := 5,
            amount_due := max 1 ((5 : ℚ) - (⟨0, "W", "L1-C1", (0 : ℚ)⟩ : Ticket).entry_time) *
              rateTable ((((ParkingLot.init none).park_vehicle (Vehicle.Car "W")
                0).2).get_spot_type (⟨0, "W", "L1-C1", (0 : ℚ)⟩ : Ticket).spot_id) }) :=
  ⟨by decide, exit_fee_spec.1 _ 0 5 _ (by decide)⟩

theorem capacity_boundary_witness :
    ((configOf (some [(SpotType.BUS, 1)])).map Prod.fst).Nodup ∧
    (∀ v ∈ ([Vehicle.Bus "a", Vehicle.Bus "b", Vehicle.Bus "c"] : List Vehicle),
      v.required_spot_type = SpotType.BUS) ∧
    classCount SpotType.BUS (ParkingLot.init (some [(SpotType.BUS, 1)])) = 2 ∧
    ([Vehicle.Bus "a", Vehicle.Bus "b", Vehicle.Bus "c"] : List Vehicle).length = 2 + 1 ∧
    ((∀ i, i < 2 → ∃ t, ((parkRun 0 (ParkingLot.init (some [(SpotType.BUS, 1)]))
        [Vehicle.Bus "a", Vehicle.Bus "b", Vehicle.Bus "c"]).1)[i]? = some (.ok t)) ∧
      ((okTickets (parkRun 0 (ParkingLot.init (some [(SpotType.BUS, 1)]))
        [Vehicle.Bus "a", Vehicle.Bus "b", Vehicle.Bus "c"]).1).map Ticket.spot_id).Nodup ∧
      (parkRun 0 (ParkingLot.init (some [(SpotType.BUS, 1)]))
        [Vehicle.Bus "a", Vehicle.Bus "b", Vehicle.Bus "c"]).1.getLast? =
          some (.error .Capacity) ∧
      (parkRun 0 (ParkingLot.init (some [(SpotType.BUS, 1)]))
        [Vehicle.Bus "a", Vehicle.Bus "b", Vehicle.Bus "c"]).2 =
      (parkRun 0 (ParkingLot.init (some [(SpotType.BUS, 1)]))
        (([Vehicle.Bus "a", Vehicle.Bus "b", Vehicle.Bus "c"] : List Vehicle).take 2)).2) :=
  ⟨by decide, by decide, by decide, by decide,
    capacity_boundary (some [(SpotType.BUS, 1)]) SpotType.BUS 2
      [Vehicle.Bus "a", Vehicle.Bus "b", Vehicle.Bus "c"] 0
      (by decide) (by decide) (by decide) (by decide)⟩

theorem exit_at_most_once_witness :
    (ticketKeys (((ParkingLot.init none).park_vehicle (Vehicle.Car "W") 0).2)).Nodup ∧
    ((∀ r lot1,
      (((ParkingLot.init none).park_vehicle (Vehicle.Car "W") 0).2).exit_vehicle 0 1 =
        (.ok r, lot1) →
      lot1.exit_vehicle 0 2 = (.error .InvalidTicket, lot1)) ∧
    (0 ∉ ticketKeys (((ParkingLot.init none).park_vehicle (Vehicle.Car "W") 0).2) →
      (((ParkingLot.init none).park_vehicle (Vehicle.Car "W") 0).2).exit_vehicle 0 1 =
        (.error .InvalidTicket,
          ((ParkingLot.init none).park_vehicle (Vehicle.Car "W") 0).2))) :=
  ⟨by decide,
    exit_at_most_once (((ParkingLot.init none).park_vehicle (Vehicle.Car "W") 0).2) 0 1 2
      (by decide)⟩

theorem park_first_free_matching_witness :
    ((ParkingLot.init none).park_vehicle (Vehicle.Car "W") 0 =
      (.ok (⟨0, "W", "L1-C1", 0⟩ : Ticket),
        ((ParkingLot.init none).park_vehicle (Vehicle.Car "W") 0).2)) ∧
    ∃ s, (allSpots (ParkingLot.init none)).find?
        (freeMatch (Vehicle.Car "W").required_spot_type) = some s ∧
      (⟨0, "W", "L1-C1", (0 : ℚ)⟩ : Ticket).spot_id = s.spot_id ∧
      s.spot_type = (Vehicle.Car "W").required_spot_type :=
  ⟨by decide,
    park_first_free_matching (ParkingLot.init none) (Vehicle.Car "W") 0
      (⟨0, "W", "L1-C1", 0⟩ : Ticket)
      ((ParkingLot.init none).park_vehicle (Vehicle.Car "W") 0).2 (by decide)⟩

theorem park_exit_roundtrip_witness :
    (allSpotIds (ParkingLot.init none)).Nodup ∧
    (∀ k ∈ ticketKeys (ParkingLot.init none), k < (ParkingLot.init none).nextTicketId) ∧
    ((ParkingLot.init none).park_vehicle (Vehicle.Car "A") 0 =
      (.ok (⟨0, "A", "L1-C1", 0⟩ : Ticket),
        ((ParkingLot.init none).park_vehicle (Vehicle.Car "A") 0).2)) ∧
    ∃ rec lot2, (((ParkingLot.init none).park_vehicle (Vehicle.Car "A") 0).2).exit_vehicle
        (⟨0, "A", "L1-C1", (0 : ℚ)⟩ : Ticket).ticket_id 1 = (.ok rec, lot2) ∧
      (∀ s ∈ allSpots lot2, s.spot_id = (⟨0, "A", "L1-C1", (0 : ℚ)⟩ : Ticket).spot_id →
        s.is_occupied = false) ∧
      ∀ (v2 : Vehicle) (t2 : ℚ),
        v2.required_spot_type = (Vehicle.Car "A").required_spot_type →
        ∃ tk2 lot3, lot2.park_vehicle v2 t2 = (.ok tk2, lot3) :=
  ⟨by decide, by decide, by decide,
    park_exit_roundtrip.1 (ParkingLot.init none) (Vehicle.Car "A") 0 1
      (⟨0, "A", "L1-C1", 0⟩ : Ticket)
      ((ParkingLot.init none).park_vehicle (Vehicle.Car "A") 0).2
      (by decide) (by decide) (by decide)⟩

theorem construction_config_witness :
    ((ParkingLot.init (some [(SpotType.CAR, 3)])).levels =
      [Level.init 1 (configOf (some [(SpotType.CAR, 3)])),
       Level.init 2 (configOf (some [(SpotType.CAR, 3)]))]) ∧
    ([(SpotType.CAR, 3)] : List (SpotType × Nat)) ≠ [] ∧
    configOf (some [(SpotType.CAR, 3)]) = [(SpotType.CAR, 3)] ∧
    (([(SpotType.CAR, 3)] : List (SpotType × Nat)).map Prod.fst).Nodup ∧
    (SpotType.CAR, 3) ∈ ([(SpotType.CAR, 3)] : List (SpotType × Nat)) ∧
    ∀ l ∈ (ParkingLot.init (some [(SpotType.CAR, 3)])).levels,
      levelClassCount SpotType.CAR l = 3 :=
  ⟨(construction_config (some [(SpotType.CAR, 3)])).1, by decide,
    (construction_config (some [(SpotType.CAR, 3)])).2.2.2.1 _ (by decide), by decide,
    by decide,
    (construction_config (some [(SpotType.CAR, 3)])).2.2.2.2.2 _ _ _ (by decide) (by decide)⟩

theorem vehicle_factory_witness :
    strLower "boat" ∉ (["car", "bus", "motorcycle"] : List String) ∧
    VehicleFactory.create "boat" "XYZ" = .error ("Unknown vehicle type: " ++ "boat") :=
  ⟨by decide, (vehicle_factory_spec "boat" "XYZ").2.2.2.1 (by decide)⟩

theorem spot_id_scheme_witness :
    (1 < 2 ∧ ((mkSpots 1 SpotType.CAR 2).map ParkingSpot.spot_id)[1]? =
      some ("L" ++ Nat.repr 1 ++ "-" ++ SpotType.CAR.name.take 1 ++ Nat.repr (1 + 1))) ∧
    ((configOf none).map Prod.fst).Nodup ∧ (allSpotIds (ParkingLot.init none)).Nodup :=
  ⟨⟨by decide, spot_id_scheme.1 1 SpotType.CAR 2 1 (by decide)⟩, by decide,
    spot_id_scheme.2.2 none (by decide)⟩
